import Mathlib

/-
Verification of the semi-structured HTML extraction engine of the ski-resort
parser repository.  The Python sources (main.py, winter.py, wether.py,
lift_schedule_api.py, ecoTracs.py, restaurant_parser_api.py, test.py) are
shallowly embedded below: the parsed markup tree becomes the inductive type
Node, BeautifulSoup queries become pre-order list searches over that tree,
Python string operations (strip, lower, replace, split, int, regular
expression search) become executable Lean functions, and the network fetch
becomes an explicit oracle of type String to Except String Node so that the
control flow around fetch failures can be stated and proved.

Modelling conventions, used consistently:
- Python None / absent optional values become Option.none.
- A raised exception (requests.RequestException turned into an
  HTTPException, or a FastAPI HTTPException raised directly) becomes the
  error branch of an Except value carrying the status code and detail text.
- Python dictionaries with a fixed key set become structures with Option
  fields; repeated assignment to the same key is last-write-wins, exactly
  as the fold-based models below implement.
- Character classes of the Python regular expressions are modelled over the
  ASCII range actually exercised by the site markup (the digit class is
  ASCII 0-9); Python whitespace is modelled by the ASCII whitespace
  characters plus the no-break space U+00A0, the characters occurring in
  the scraped pages.
- datetime.now timestamps (winter.py Track.updated_at) are outside a pure
  embedding and are dropped from the records; no claim mentions them.
-/

/-! ## Python string primitives -/

/-- Whitespace for the purposes of str.strip and the regex class backslash-s:
ASCII whitespace plus the no-break space U+00A0. -/
def pyIsSpace (c : Char) : Bool :=
  c.toNat = 32 || c.toNat = 9 || c.toNat = 10 || c.toNat = 13 ||
  c.toNat = 11 || c.toNat = 12 || c.toNat = 160

/-- Digit class of the regular expressions (ASCII 0-9, code points 48 to
57). -/
def pyIsDigit (c : Char) : Bool :=
  48 ≤ c.toNat && c.toNat ≤ 57

/-- Python str.strip on a character list. -/
def pyStripList (l : List Char) : List Char :=
  ((l.dropWhile pyIsSpace).reverse.dropWhile pyIsSpace).reverse

/-- Python str.strip. -/
def pyStrip (s : String) : String :=
  String.mk (pyStripList s.toList)

/-- Python str.lower restricted to the alphabets that occur in the scraped
pages: ASCII letters and the Russian Cyrillic block (А-Я and Ё). -/
def pyLowerChar (c : Char) : Char :=
  if 'A' ≤ c && c ≤ 'Z' then Char.ofNat (c.toNat + 32)
  else if 0x410 ≤ c.toNat && c.toNat ≤ 0x42F then Char.ofNat (c.toNat + 0x20)
  else if c.toNat = 0x401 then Char.ofNat 0x451
  else c

/-- Python str.lower on a string. -/
def pyLower (s : String) : String :=
  String.mk (s.toList.map pyLowerChar)

/-- Test whether the first list is a leading segment of the second. -/
def listLeads : List Char → List Char → Bool
  | [], _ => true
  | _ :: _, [] => false
  | p :: ps, h :: hs => p == h && listLeads ps hs

/-- Remainder of the second list after removing the first as a leading
segment, when it is one. -/
def stripLead : List Char → List Char → Option (List Char)
  | [], l => some l
  | _ :: _, [] => none
  | p :: ps, h :: hs => if p == h then stripLead ps hs else none

/-- Substring test on character lists (Python in operator on str). -/
def listHasSub (pat : List Char) : List Char → Bool
  | [] => listLeads pat []
  | h :: hs => listLeads pat (h :: hs) || listHasSub pat hs

/-- Python substring test: strHas hay pat is pat in hay. -/
def strHas (hay pat : String) : Bool :=
  listHasSub pat.toList hay.toList

/-- Python str.startswith for one candidate. -/
def strStarts (s pat : String) : Bool :=
  listLeads pat.toList s.toList

/-- Fuel-indexed substring replacement; with fuel at least the length of the
subject and a non-empty pattern it is Python str.replace. -/
def replFuel (pat rep : List Char) : Nat → List Char → List Char
  | _, [] => []
  | 0, l => l
  | fuel + 1, c :: rest =>
    match stripLead pat (c :: rest) with
    | some rem => rep ++ replFuel pat rep fuel rem
    | none => c :: replFuel pat rep fuel rest

/-- Python str.replace (the patterns used in the sources are non-empty). -/
def pyReplace (s pat rep : String) : String :=
  String.mk (replFuel pat.toList rep.toList s.toList.length s.toList)

/-- Fuel-indexed splitting on a separator; with fuel at least the length of
the subject and a non-empty separator it is Python str.split(sep). -/
def splitFuel (sep : List Char) : Nat → List Char → List Char → List (List Char)
  | _, cur, [] => [cur.reverse]
  | 0, cur, l => [cur.reverse ++ l]
  | fuel + 1, cur, c :: rest =>
    match stripLead sep (c :: rest) with
    | some rem => cur.reverse :: splitFuel sep fuel [] rem
    | none => splitFuel sep fuel (c :: cur) rest

/-- Python str.split(sep) for a non-empty separator. -/
def pySplit (s sep : String) : List String :=
  (splitFuel sep.toList s.toList.length [] s.toList).map String.mk

/-- Collapse every whitespace run to a single space (the regex substitution
of a backslash-s-plus pattern by one space).  The flag records whether the
previous character was part of a run. -/
def collapseAux : Bool → List Char → List Char
  | _, [] => []
  | prevSpace, c :: rest =>
    if pyIsSpace c then
      if prevSpace then collapseAux true rest
      else ' ' :: collapseAux true rest
    else c :: collapseAux false rest

/-- Maximal-munch split at the first character failing the predicate. -/
def spanD (p : Char → Bool) : List Char → List Char × List Char
  | [] => ([], [])
  | c :: rest =>
    if p c then (c :: (spanD p rest).1, (spanD p rest).2)
    else ([], c :: rest)

/-- Numeric value of a digit list read in base 10. -/
def digitsVal (l : List Char) : Nat :=
  l.foldl (fun acc c => 10 * acc + (c.toNat - 48)) 0

/-- No two consecutive underscores. -/
def noDoubleUnd : List Char → Bool
  | [] => true
  | [_] => true
  | a :: b :: rest => !(a = '_' && b = '_') && noDoubleUnd (b :: rest)

/-- Shape accepted by the Python int constructor after sign removal:
non-empty, digits and single interior underscores only (PEP 515). -/
def okDigitsU (l : List Char) : Bool :=
  !l.isEmpty &&
  l.all (fun c => pyIsDigit c || c = '_') &&
  pyIsDigit (l.headD 'x') &&
  pyIsDigit (l.getLastD 'x') &&
  noDoubleUnd l

/-- Python int(str): strip whitespace, optional sign, digits with optional
single interior underscores; None models a raised ValueError. -/
def pyInt (s : String) : Option Int :=
  match pyStripList s.toList with
  | '+' :: r => if okDigitsU r then some (digitsVal (r.filter pyIsDigit)) else none
  | '-' :: r => if okDigitsU r then some (-(digitsVal (r.filter pyIsDigit) : Int)) else none
  | r => if okDigitsU r then some (digitsVal (r.filter pyIsDigit)) else none

/-! ## The markup tree

A parsed document is a tree of element and text nodes.  The class attribute
is kept as its token list (BeautifulSoup multi-valued attribute), the other
attributes as an association list. -/

inductive Node where
  | text (s : String)
  | elem (tag : String) (classes : List String) (attrs : List (String × String))
      (children : List Node)
deriving Repr

/-- Tag of an element node. -/
def Node.tagOf : Node → Option String
  | .text _ => none
  | .elem t _ _ _ => some t

/-- Class token list of a node (empty for text nodes and elements without a
class attribute). -/
def Node.classesOf : Node → List String
  | .text _ => []
  | .elem _ cs _ _ => cs

/-- Attribute lookup (None when absent, as BeautifulSoup get). -/
def Node.attr : Node → String → Option String
  | .text _, _ => none
  | .elem _ _ as _, k => (as.find? (fun kv => kv.1 = k)).map (·.2)

/-- Direct children of a node. -/
def Node.childrenOf : Node → List Node
  | .text _ => []
  | .elem _ _ _ cs => cs

mutual
/-- Pre-order flattening of a node: the node itself followed by all of its
descendants in document order.  Every BeautifulSoup traversal below is a
list operation over this flattening. -/
def flat : Node → List Node
  | .text s => [.text s]
  | .elem t c a cs => .elem t c a cs :: flatKids cs
/-- Pre-order flattening of a forest. -/
def flatKids : List Node → List Node
  | [] => []
  | n :: ns => flat n ++ flatKids ns
end

/-- Descendants of a node in document order (the node itself excluded). -/
def descendants (n : Node) : List Node :=
  flatKids n.childrenOf

/-- BeautifulSoup element.find(...): first descendant satisfying the
predicate. -/
def findIn (n : Node) (p : Node → Bool) : Option Node :=
  (descendants n).find? p

/-- BeautifulSoup element.find_all(...): all descendants satisfying the
predicate, in document order. -/
def findAllIn (n : Node) (p : Node → Bool) : List Node :=
  (descendants n).filter p

/-- Text content of a text node, empty for elements. -/
def Node.textPart : Node → String
  | .text s => s
  | .elem _ _ _ _ => ""

/-- BeautifulSoup element.text: concatenation of all descendant strings in
document order. -/
def textOf (n : Node) : String :=
  ((flat n).map Node.textPart).foldl (· ++ ·) ""

/-- BeautifulSoup get_text(strip=True): concatenation of the individually
stripped descendant strings. -/
def getTextStrip (n : Node) : String :=
  ((flat n).map (fun m => pyStrip m.textPart)).foldl (· ++ ·) ""

/-- An element with the given tag. -/
def tagIs (t : String) (n : Node) : Bool :=
  n.tagOf = some t

/-- Membership of a single class token (BeautifulSoup class_ with a
space-free string). -/
def hasClassToken (n : Node) (tok : String) : Bool :=
  n.classesOf.contains tok

/-- BeautifulSoup class_ selector string: a string containing a space is
matched against the full space-joined class value, a single token against
the token list. -/
def classSelMatches (n : Node) (sel : String) : Bool :=
  if strHas sel " " then " ".intercalate n.classesOf = sel
  else hasClassToken n sel

/-- BeautifulSoup tag.string: the single descendant string reached through
only-children, None otherwise. -/
def Node.stringOf : Node → Option String
  | .text s => some s
  | .elem _ _ _ [c] => Node.stringOf c
  | .elem _ _ _ _ => none

/-! ## Price normalisation (test.py clean_price)

The function is

  if text == '-': return None
  price = re.sub(r'[^\x5cd]', '', text)
  return int(price) if price else None

The int call is modelled through pyInt; a ValueError would surface as the
error branch, so totality of the function is a provable statement rather
than an assumption. -/

/-- Embedding of test.py clean_price.  The error branch models a raised
ValueError escaping the function; the ok branch carries the returned
Optional[int]. -/
def clean_price (text : String) : Except String (Option Int) :=
  if text = "-" then .ok none
  else
    let price := text.toList.filter pyIsDigit
    if !price.isEmpty then
      match pyInt (String.mk price) with
      | some n => .ok (some n)
      | none => .error "ValueError"
    else .ok none

/-! ## Lift schedules (lift_schedule_api.py)

extract_schedule scans table rows; a row whose stripped text contains one of
four fixed phrases has a time range extracted by the regular expression
with-s HH:MM do HH:MM (the Cyrillic words s and do), whose digit groups are
one-or-more digits each.  After the scan, a lift whose name contains the
substring Zapad receives fixed weekend defaults for the still-absent
fields. -/

/-- Match of the regular expression for a time phrase at the start of the
list: the literal letter s and a space, digits, colon, digits, the literal
word do between spaces, digits, colon, digits.  Returns the four digit
groups. -/
def timeAt (l : List Char) : Option (List Char × List Char × List Char × List Char) :=
  match stripLead ['с', ' '] l with
  | none => none
  | some r =>
    let s1 := spanD pyIsDigit r
    if s1.1.isEmpty then none else
    match stripLead [':'] s1.2 with
    | none => none
    | some r2 =>
      let s2 := spanD pyIsDigit r2
      if s2.1.isEmpty then none else
      match stripLead [' ', 'д', 'о', ' '] s2.2 with
      | none => none
      | some r4 =>
        let s3 := spanD pyIsDigit r4
        if s3.1.isEmpty then none else
        match stripLead [':'] s3.2 with
        | none => none
        | some r6 =>
          let s4 := spanD pyIsDigit r6
          if s4.1.isEmpty then none else some (s1.1, s2.1, s3.1, s4.1)

/-- re.search for the time phrase: leftmost match wins. -/
def searchTime : List Char → Option (List Char × List Char × List Char × List Char)
  | [] => none
  | c :: rest =>
    match timeAt (c :: rest) with
    | some q => some q
    | none => searchTime rest

/-- The stored range string built from the two matched groups, exactly the
f-string group1-group2 of the source. -/
def timeRangeOf (text : String) : Option String :=
  (searchTime text.toList).map fun q =>
    String.mk (q.1 ++ ':' :: (q.2.1 ++ '-' :: (q.2.2.1 ++ ':' :: q.2.2.2)))

/-- The schedule dictionary of extract_schedule: each key optional. -/
structure Sched where
  workdays : Option String := none
  saturday : Option String := none
  sunday : Option String := none
deriving Repr, DecidableEq

/-- One row of the scanning loop of extract_schedule: the four phrase
patterns tried in order on the stripped row text, assignments
last-write-wins. -/
def schedStep (s : Sched) (row : Node) : Sched :=
  let text := getTextStrip row
  if strHas text "Понедельник-пятница" then
    match timeRangeOf text with
    | some r => { s with workdays := some r }
    | none => s
  else if strHas text "Суббота и воскресенье" then
    match timeRangeOf text with
    | some r => { s with saturday := some r, sunday := some r }
    | none => s
  else if strHas text "Суббота:" then
    match timeRangeOf text with
    | some r => { s with saturday := some r }
    | none => s
  else if strHas text "Воскресенье:" then
    match timeRangeOf text with
    | some r => { s with sunday := some r }
    | none => s
  else s

/-- The schedule derived from the rows alone, before any name-conditioned
defaulting. -/
def rowSchedule (rows : List Node) : Sched :=
  rows.foldl schedStep {}

/-- Embedding of extract_schedule: row scan, then the Zapad override that
injects fixed defaults for the still-absent weekend fields. -/
def extract_schedule (rows : List Node) (lift_name : String) : Sched :=
  let schedule := rowSchedule rows
  if strHas lift_name "Запад" then
    let s1 :=
      if schedule.sunday = none then { schedule with sunday := some "09:00-21:00" }
      else schedule
    if s1.saturday = none then { s1 with saturday := some "09:00-22:00" } else s1
  else schedule

/-- A lift record of parse_html. -/
structure LiftInfo where
  name : String
  schedule : Sched
deriving Repr, DecidableEq

/-- Loop of parse_html over the located tables: a table without a caption is
skipped; a caption without a paragraph raises (caption.find(p).text on
None), modelled by the error branch. -/
def liftsOfTables : List Node → Except String (List LiftInfo)
  | [] => .ok []
  | t :: ts =>
    match findIn t (tagIs "caption") with
    | none => liftsOfTables ts
    | some cap =>
      match findIn cap (tagIs "p") with
      | none => .error "AttributeError"
      | some p =>
        let name := pyStrip (textOf p)
        let rows := findAllIn t (tagIs "tr")
        (liftsOfTables ts).map (fun rest => ⟨name, extract_schedule rows name⟩ :: rest)

/-- Embedding of parse_html of lift_schedule_api.py.  The document node
stands for the soup object; searches go over its descendants. -/
def parse_html (doc : Node) : Except String (List LiftInfo) :=
  liftsOfTables (findAllIn doc (tagIs "table"))

/-- Shape invariant actually guaranteed for stored ranges: digits, colon,
digits, hyphen, digits, colon, digits, with each digit group non-empty and
of arbitrary length. -/
def rangeShape (s : String) : Bool :=
  let s1 := spanD pyIsDigit s.toList
  !s1.1.isEmpty &&
  match stripLead [':'] s1.2 with
  | none => false
  | some r2 =>
    let s2 := spanD pyIsDigit r2
    !s2.1.isEmpty &&
    match stripLead ['-'] s2.2 with
    | none => false
    | some r4 =>
      let s3 := spanD pyIsDigit r4
      !s3.1.isEmpty &&
      match stripLead [':'] s3.2 with
      | none => false
      | some r6 =>
        let s4 := spanD pyIsDigit r6
        !s4.1.isEmpty && s4.2.isEmpty

/-- Validated clock range in the sense of the specification: exactly
HH:MM-HH:MM with two-digit fields, hours below 24 and minutes below 60. -/
def hhmmRangeValid (s : String) : Bool :=
  match s.toList with
  | [h1, h2, ':', m1, m2, '-', h3, h4, ':', m3, m4] =>
    [h1, h2, m1, m2, h3, h4, m3, m4].all pyIsDigit &&
    digitsVal [h1, h2] < 24 && digitsVal [m1, m2] < 60 &&
    digitsVal [h3, h4] < 24 && digitsVal [m3, m4] < 60
  | _ => false

/-! ## Zones and tracks (main.py and winter.py)

Both modules locate track option blocks with the same tag plus class
fallback chain and share the zone-link selectors; they differ in the
per-block field set and in how a fetch failure is handled, which is exactly
what the error-handling claims are about.  The fetch is an oracle from URL
to Except String Node; its error branch is a requests.RequestException
whose string is the carried message. -/

/-- Selector of a track option block: a div matching either the two-token
class string or the single token (find_all class_ list semantics). -/
def isTrackOption (n : Node) : Bool :=
  tagIs "div" n &&
  (classSelMatches n "scheme-select__option track-option" || classSelMatches n "track-option")

/-- All track option blocks of a document. -/
def trackBlocks (doc : Node) : List Node :=
  findAllIn doc isTrackOption

/-- The number element of a block: first descendant div with the
track-option number class. -/
def numberElem (block : Node) : Option Node :=
  findIn block (fun n => tagIs "div" n && hasClassToken n "track-option__number")

/-- The display number string: stripped text of the number element, or the
placeholder when the element is absent. -/
def numberText (block : Node) : String :=
  match numberElem block with
  | some e => pyStrip (textOf e)
  | none => "Не указано"

/-- First stage of main.py difficulty classification: substring checks of
the four style classes against each class token of the number element, in
order, guarded by the presence of a non-empty class attribute. -/
def styleDifficulty (block : Node) : String :=
  match numberElem block with
  | none => "Не указано"
  | some e =>
    if !e.classesOf.isEmpty then
      if e.classesOf.any (fun c => strHas c "track-option__number_style_1") then "Простая"
      else if e.classesOf.any (fun c => strHas c "track-option__number_style_2") then "Средняя"
      else if e.classesOf.any (fun c => strHas c "track-option__number_style_3") then "Сложная"
      else if e.classesOf.any (fun c => strHas c "track-option__number_style_4") then "Очень сложная"
      else "Не указано"
    else "Не указано"

/-- Numeric banding of the second stage (int comparison). -/
def numBand (n : Int) : String :=
  if n ≤ 4 then "Простая"
  else if n ≤ 8 then "Средняя"
  else if n ≤ 12 then "Сложная"
  else "Очень сложная"

/-- Difficulty assigned by main.py parse_tracks to a block: style classes
first; if they said nothing and a display number string is present, int
parsing with numeric banding, a failed parse falling back to the literal
Srednyaya; otherwise the placeholder remains. -/
def trackDifficulty (block : Node) : String :=
  let d := styleDifficulty block
  let number := numberText block
  if d = "Не указано" ∧ number ≠ "Не указано" then
    match pyInt number with
    | some n => numBand n
    | none => "Средняя"
  else d

/-- Parameter set of a main.py track. -/
structure MTrackParams where
  length : Option String := none
  time : Option String := none
  height : Option String := none
  lighting : Option String := none
  snow : Option String := none
  lift_type : Option String := none
  capacity : Option String := none
  difficulty : Option String := none
deriving Repr, DecidableEq

/-- One iteration of the main.py parameter loop: the icon class token
decides which field receives the stripped parameter text. -/
def trackParamStep (p : MTrackParams) (param : Node) : MTrackParams :=
  match findIn param (fun n => tagIs "span" n && hasClassToken n "icon") with
  | none => p
  | some icon =>
    if icon.classesOf.isEmpty then p
    else
      let ptext := pyStrip (textOf param)
      if icon.classesOf.contains "icon_image_track-length" then { p with length := some ptext }
      else if icon.classesOf.contains "icon_image_clock" ||
              icon.classesOf.contains "icon_image_hourglass" then { p with time := some ptext }
      else if icon.classesOf.contains "icon_image_track-height" then { p with height := some ptext }
      else if icon.classesOf.contains "icon_image_lamp" then { p with lighting := some ptext }
      else if icon.classesOf.contains "icon_image_snowmachine" then { p with snow := some ptext }
      else if icon.classesOf.contains "icon_image_cabine" then { p with lift_type := some ptext }
      else if icon.classesOf.contains "icon_image_people" then { p with capacity := some ptext }
      else p

/-- A main.py track record. -/
structure MTrack where
  name : String
  number : String
  params : MTrackParams
  status : String
  url : Option String
deriving Repr, DecidableEq

/-- Per-block body of main.py parse_tracks; none models the continue on a
missing or empty name.  A missing href on the info button would raise a
KeyError in Python; the anchors of every statement below carry one, so the
lookup is modelled with an empty-string default. -/
def mainTrackOf (block : Node) : Option MTrack :=
  match findIn block (fun n => tagIs "div" n && hasClassToken n "track-option__name") with
  | none => none
  | some ne =>
    let nm := pyStrip (textOf ne)
    if nm = "" then none
    else
      let params0 := (findAllIn block (fun n => tagIs "span" n && classSelMatches n "track-param")).foldl
        trackParamStep {}
      let status :=
        match findIn block (fun n => tagIs "p" n && hasClassToken n "track-status") with
        | some s => pyStrip (textOf s)
        | none => "Статус неизвестен"
      let url :=
        match findIn block (fun n => tagIs "a" n &&
            classSelMatches n "button button_style_default button_type_2") with
        | some b => some ("https://ski-gv.ru" ++ (b.attr "href").getD "")
        | none => none
      some
        { name := nm
          number := numberText block
          params := { params0 with difficulty := some (trackDifficulty block) }
          status := status
          url := url }

/-- Track list extracted by main.py parse_tracks from a fetched document. -/
def parseTracksDoc (doc : Node) : List MTrack :=
  (trackBlocks doc).filterMap mainTrackOf

/-- Embedding of main.py parse_tracks: the surrounding except clause turns
any fetch failure into an empty list. -/
def main_parse_tracks (fetch : String → Except String Node) (url : String) : List MTrack :=
  match fetch url with
  | .error _ => []
  | .ok doc => parseTracksDoc doc

/-- Zone anchor selector shared by main.py and winter.py, including the
fallback through the gv-select container. -/
def zoneAnchors (doc : Node) : List Node :=
  let zones := findAllIn doc (fun n => tagIs "a" n &&
    (classSelMatches n "gv-select__option option" || classSelMatches n "gv-selectoption option"))
  if zones.isEmpty then
    match findIn doc (fun n => tagIs "div" n && hasClassToken n "gv-select") with
    | some gv => findAllIn gv (fun n => tagIs "a" n && hasClassToken n "option")
    | none => []
  else zones

/-- Zone display name: stripped anchor text, cut before an opening
parenthesis when one occurs. -/
def zoneNameOf (z : Node) : String :=
  let nm := pyStrip (textOf z)
  if strHas nm "(" then pyStrip ((pySplit nm "(").headD "") else nm

/-- Zone page URL: base plus href. -/
def zoneUrlOf (z : Node) : String :=
  "https://ski-gv.ru" ++ (z.attr "href").getD ""

/-- A main.py zone record. -/
structure MZone where
  name : String
  url : String
  tracks : List MTrack
deriving Repr, DecidableEq

/-- Embedding of main.py get_zones: both page fetches short-circuit to
None, an empty anchor list is None, and each zone is processed through
main_parse_tracks, whose own error handling keeps the loop alive. -/
def main_get_zones (fetch : String → Except String Node) : Option (List MZone) :=
  match fetch "https://ski-gv.ru" with
  | .error _ => none
  | .ok _ =>
    match fetch "https://ski-gv.ru/hills/1/1/" with
    | .error _ => none
    | .ok doc =>
      let zones := zoneAnchors doc
      if zones.isEmpty then none
      else some (zones.map fun z =>
        { name := zoneNameOf z, url := zoneUrlOf z
          tracks := main_parse_tracks fetch (zoneUrlOf z) })

/-- Status and detail of a FastAPI HTTPException. -/
structure HttpErr where
  status : Nat
  detail : String
deriving Repr, DecidableEq

/-- Parameter set of a winter.py track (exact class-token membership, no
hourglass alternative, plus the colour by difficulty class). -/
structure WTrackParam where
  length : Option String := none
  time : Option String := none
  height : Option String := none
  lighting : Option String := none
  snow : Option String := none
  color : Option String := none
deriving Repr, DecidableEq

/-- Colour of winter.py parse_track_params, decided by exact membership of
the style class tokens (style 2 intentionally absent in the source). -/
def winterColor (number_elem : Option Node) : Option String :=
  match number_elem with
  | none => none
  | some e =>
    if !e.classesOf.isEmpty then
      if e.classesOf.contains "track-option__number_style_1" then some "#429867"
      else if e.classesOf.contains "track-option__number_style_3" then some "#cd0b0b"
      else if e.classesOf.contains "track-option__number_style_4" then some "#000"
      else none
    else none

/-- One iteration of the winter.py parameter loop. -/
def winterParamStep (p : WTrackParam) (param : Node) : WTrackParam :=
  match findIn param (fun n => tagIs "span" n && hasClassToken n "icon") with
  | none => p
  | some icon =>
    if icon.classesOf.isEmpty then p
    else
      let ptext := pyStrip (textOf param)
      if icon.classesOf.contains "icon_image_track-length" then { p with length := some ptext }
      else if icon.classesOf.contains "icon_image_clock" then { p with time := some ptext }
      else if icon.classesOf.contains "icon_image_track-height" then { p with height := some ptext }
      else if icon.classesOf.contains "icon_image_lamp" then { p with lighting := some ptext }
      else if icon.classesOf.contains "icon_image_snowmachine" then { p with snow := some ptext }
      else p

/-- Embedding of winter.py parse_track_params. -/
def parse_track_params (params : List Node) (number_elem : Option Node) : WTrackParam :=
  { params.foldl winterParamStep {} with color := winterColor number_elem }

/-- A winter.py track record (updated_at timestamp dropped, see header). -/
structure WTrack where
  name : String
  number : String
  params : WTrackParam
  status : String
deriving Repr, DecidableEq

/-- Per-block body of the winter.py track loop (no skip on a missing
name). -/
def winterTrackOf (block : Node) : WTrack :=
  let name :=
    match findIn block (fun n => tagIs "div" n && hasClassToken n "track-option__name") with
    | some e => pyStrip (textOf e)
    | none => "Не указано"
  let ne := numberElem block
  let number :=
    match ne with
    | some e => pyStrip (textOf e)
    | none => "Не указано"
  let params :=
    match findIn block (fun n => tagIs "div" n && hasClassToken n "track-option__info") with
    | some ib => findAllIn ib (fun n => tagIs "span" n && hasClassToken n "track-param")
    | none => findAllIn block (fun n => tagIs "span" n && hasClassToken n "track-param")
  let status :=
    match findIn block (fun n => tagIs "p" n && hasClassToken n "track-status") with
    | some s => pyStrip (textOf s)
    | none => "Статус неизвестен"
  { name := name, number := number
    params := parse_track_params params ne, status := status }

/-- Embedding of winter.py parse_tracks: a fetch failure raises an
HTTPException with status 500 and the diagnostic detail. -/
def winter_parse_tracks (fetch : String → Except String Node) (url : String) :
    Except HttpErr (List WTrack) :=
  match fetch url with
  | .error e => .error ⟨500, "Ошибка при парсинге трасс: " ++ e⟩
  | .ok doc => .ok ((trackBlocks doc).map winterTrackOf)

/-- A winter.py zone record. -/
structure WZone where
  name : String
  url : String
  tracks : List WTrack
deriving Repr, DecidableEq

/-- Sequential zone loop of winter.py get_zones: the first HTTPException
raised inside winter_parse_tracks aborts the whole crawl. -/
def winterZonesGo (fetch : String → Except String Node) :
    List Node → Except HttpErr (List WZone)
  | [] => .ok []
  | z :: zs => do
    let tracks ← winter_parse_tracks fetch (zoneUrlOf z)
    let rest ← winterZonesGo fetch zs
    return ⟨zoneNameOf z, zoneUrlOf z, tracks⟩ :: rest

/-- Embedding of winter.py get_zones.  The except clause of the source
catches only requests.RequestException, so an HTTPException raised in
winter_parse_tracks propagates unchanged. -/
def winter_get_zones (fetch : String → Except String Node) : Except HttpErr (List WZone) :=
  match fetch "https://ski-gv.ru/hills/1/1/" with
  | .error e => .error ⟨500, "Ошибка при получении зон: " ++ e⟩
  | .ok doc =>
    let zones := zoneAnchors doc
    if zones.isEmpty then .error ⟨404, "Зоны не найдены"⟩
    else winterZonesGo fetch zones

/-! ## The difficulty policy in the words of the specification

The two claim-side definitions below follow the sentences of the
specification, to be compared with trackDifficulty: styleSuffixOf is the
style-suffix class stage, claimDifficulty the full claimed policy, and
claimDifficultyAmended the policy as amended by the counterexample (a
present but unparseable display number falls back to the literal Srednyaya
instead of remaining unknown). -/

/-- Style-class suffix carried by the number element, first matching suffix
in the order 1, 2, 3, 4. -/
def styleSuffixOf (block : Node) : Option Nat :=
  match numberElem block with
  | none => none
  | some e =>
    if e.classesOf.any (fun c => strHas c "track-option__number_style_1") then some 1
    else if e.classesOf.any (fun c => strHas c "track-option__number_style_2") then some 2
    else if e.classesOf.any (fun c => strHas c "track-option__number_style_3") then some 3
    else if e.classesOf.any (fun c => strHas c "track-option__number_style_4") then some 4
    else none

/-- Difficulty policy exactly as claimed: style suffix first (suffix one
easy, two medium, three hard, the remaining produced suffix four expert),
then numeric banding when the display number parses as an integer, and the
unknown placeholder in every remaining case. -/
def claimDifficulty (block : Node) : String :=
  match styleSuffixOf block with
  | some k =>
    if k = 1 then "Простая"
    else if k = 2 then "Средняя"
    else if k = 3 then "Сложная"
    else "Очень сложная"
  | none =>
    match pyInt (numberText block) with
    | some n => numBand n
    | none => "Не указано"

/-- Amended difficulty policy: as claimed, except that a display number
string which is present (differs from the absent placeholder) but does not
parse as an integer yields the literal Srednyaya; the unknown placeholder
remains only when no display number was found. -/
def claimDifficultyAmended (block : Node) : String :=
  match styleSuffixOf block with
  | some k =>
    if k = 1 then "Простая"
    else if k = 2 then "Средняя"
    else if k = 3 then "Сложная"
    else "Очень сложная"
  | none =>
    if numberText block ≠ "Не указано" then
      match pyInt (numberText block) with
      | some n => numBand n
      | none => "Средняя"
    else "Не указано"

/-! ## Weather (wether.py)

The current-weather card is located first; every field is then extracted
independently from the card, so the absence of one element never affects
the others.  A missing card raises an HTTPException with status 404, which
the final except clause of the source re-wraps into status 500 with an
Unexpected error prefix; both layers are modelled. -/

/-- A weather snapshot; every field optional. -/
structure WeatherData where
  temperature : Option String := none
  condition : Option String := none
  wind : Option String := none
  sunrise : Option String := none
  sunset : Option String := none
  humidity : Option String := none
  pressure : Option String := none
  icon_url : Option String := none
deriving Repr, DecidableEq

/-- The current-weather card of a document. -/
def findCard (doc : Node) : Option Node :=
  findIn doc (fun n => tagIs "div" n && hasClassToken n "weather__current-part")

/-- Icon URL: src attribute of the weather-card icon image. -/
def iconUrlOf (card : Node) : Option String :=
  (findIn card (fun n => tagIs "img" n && hasClassToken n "weather-card__icon")).bind
    (fun icon => icon.attr "src")

/-- The temperature element of the card. -/
def tempElem (card : Node) : Option Node :=
  findIn card (fun n => tagIs "p" n && hasClassToken n "weather-card__temp")

/-- Temperature: stripped text of the temperature element. -/
def temperatureOf (card : Node) : Option String :=
  (tempElem card).map (fun t => pyStrip (textOf t))

/-- Condition: stripped text of the weather-condition span. -/
def conditionOf (card : Node) : Option String :=
  (findIn card (fun n => tagIs "span" n && hasClassToken n "weather-condition")).map
    (fun c => pyStrip (textOf c))

/-- Wind: stripped text of the first paragraph of the card whose text
contains the word Veter. -/
def windOf (card : Node) : Option String :=
  (((findAllIn card (tagIs "p")).filter (fun p => strHas (textOf p) "Ветер")).head?).map
    (fun p => pyStrip (textOf p))

/-- The four labelled parameters of the card. -/
structure WxParams where
  sunrise : Option String := none
  sunset : Option String := none
  humidity : Option String := none
  pressure : Option String := none
deriving Repr, DecidableEq

/-- One list item of the parameter list: with at least two paragraphs, the
lowercased first is the label routed by keyword, the second the value. -/
def wxParamStep (acc : WxParams) (li : Node) : WxParams :=
  match findAllIn li (tagIs "p") with
  | p0 :: p1 :: _ =>
    let nm := pyLower (pyStrip (textOf p0))
    let v := pyStrip (textOf p1)
    if strHas nm "восход" then { acc with sunrise := some v }
    else if strHas nm "заход" then { acc with sunset := some v }
    else if strHas nm "влажность" then { acc with humidity := some v }
    else if strHas nm "давление" then { acc with pressure := some v }
    else acc
  | _ => acc

/-- Labelled parameters of the card, scanned from the parameter list when
it is present. -/
def wxParamsOf (card : Node) : WxParams :=
  match findIn card (fun n => tagIs "ul" n && hasClassToken n "weather-card__params") with
  | some ul => (findAllIn ul (tagIs "li")).foldl wxParamStep {}
  | none => {}

/-- The snapshot extracted from a located card: all fields independent. -/
def weatherOfCard (card : Node) : WeatherData :=
  let px := wxParamsOf card
  { temperature := temperatureOf card
    condition := conditionOf card
    wind := windOf card
    sunrise := px.sunrise
    sunset := px.sunset
    humidity := px.humidity
    pressure := px.pressure
    icon_url := iconUrlOf card }

/-- Document-level weather extraction: a missing card is the hard
StructureError (HTTPException 404 in the source). -/
def weather_from_doc (doc : Node) : Except HttpErr WeatherData :=
  match findCard doc with
  | none => .error ⟨404, "Weather data not found"⟩
  | some card => .ok (weatherOfCard card)

/-- Embedding of fetch_weather_data: a fetch failure is caught as status
503 with diagnostic detail; an HTTPException raised inside the try block is
caught by the final except clause and re-wrapped as status 500. -/
def fetch_weather_data (fetch : String → Except String Node) : Except HttpErr WeatherData :=
  match fetch "https://ski-gv.ru/weather/" with
  | .error e => .error ⟨503, "Error fetching weather data: " ++ e⟩
  | .ok doc =>
    match weather_from_doc doc with
    | .ok w => .ok w
    | .error h => .error ⟨500, "Unexpected error: " ++ toString h.status ++ ": " ++ h.detail⟩

/-! ## Eco trails (ecoTracs.py)

Headed sections of the formatted-text container become trails; the map URL
of a trail flushed mid-loop always comes from the generic find_map_url
search, while the trail still current when the loop ends goes through the
name check against the hardcoded override first. -/

/-- Embedding of ecoTracs.py clean_text: entity and no-break-space
replacement, strip, then collapse of whitespace runs. -/
def clean_text (text : String) : String :=
  let t1 := pyReplace text "&nbsp;" " "
  let t2 := pyStrip (pyReplace t1 "\xa0" " ")
  String.mk (collapseAux false t2.toList)

/-- An eco trail record.  The Python float length is represented by the
exact decimal value the matched literal denotes. -/
structure EcoTrail where
  name : String
  length : ℚ
  description : String
  map_url : Option String := none
deriving Repr, DecidableEq

/-- Split of a heading: the regex of one-or-more non-hyphens, a hyphen,
optional spaces and a non-empty remainder, with both groups stripped;
otherwise the split on the space-hyphen-space token.  The input comes from
clean_text, so it contains no newline and the dot class is total on it. -/
def ecoSplit (text : String) : String × String :=
  let l := text.toList
  let a := l.takeWhile (fun c => c ≠ '-')
  match l.drop a.length with
  | '-' :: b =>
    if !a.isEmpty && !b.isEmpty then (pyStrip (String.mk a), pyStrip (String.mk b))
    else
      let parts := pySplit text " - "
      (pyStrip (parts.headD ""),
       if 1 < parts.length then pyStrip ((parts.get? 1).getD "") else "")
  | _ =>
    let parts := pySplit text " - "
    (pyStrip (parts.headD ""),
     if 1 < parts.length then pyStrip ((parts.get? 1).getD "") else "")

/-- The literal word km after optional spaces. -/
def kmAfter (l : List Char) : Bool :=
  listLeads "км".toList (l.dropWhile pyIsSpace)

/-- Match of the trail-length phrase at the start of the list: the literal
word, optional spaces, digits with an optional decimal part in which spaces
may follow the separator, optional spaces, the word km.  Returns the
captured number group including separator and interior spaces. -/
def lengthAt (l : List Char) : Option (List Char) :=
  match stripLead "протяженностью".toList l with
  | none => none
  | some r0 =>
    let r1 := r0.dropWhile pyIsSpace
    let s1 := spanD pyIsDigit r1
    if s1.1.isEmpty then none
    else
      let withGroup :=
        match s1.2 with
        | sep :: r3 =>
          if sep = '.' || sep = ',' then
            let sp := r3.takeWhile pyIsSpace
            let s2 := spanD pyIsDigit (r3.dropWhile pyIsSpace)
            if kmAfter s2.2 then some (s1.1 ++ sep :: (sp ++ s2.1)) else none
          else none
        | [] => none
      match withGroup with
      | some g => some g
      | none => if kmAfter s1.2 then some s1.1 else none

/-- re.search for the trail-length phrase. -/
def lengthSearch : List Char → Option (List Char)
  | [] => none
  | c :: rest =>
    match lengthAt (c :: rest) with
    | some g => some g
    | none => lengthSearch rest

/-- Normalisation applied to the captured group: spaces removed, comma
turned into a dot. -/
def normNum (g : List Char) : List Char :=
  (g.filter (fun c => c ≠ ' ')).map (fun c => if c = ',' then '.' else c)

/-- Exact decimal value of a digits-dot-digits literal (the Python float
call on the normalised group). -/
def decToQ (l : List Char) : ℚ :=
  let s1 := spanD pyIsDigit l
  match s1.2 with
  | '.' :: fr =>
    let fd := fr.takeWhile pyIsDigit
    (digitsVal s1.1 : ℚ) + (digitsVal fd : ℚ) / ((10 : ℚ) ^ fd.length)
  | _ => (digitsVal s1.1 : ℚ)

/-- Match of the widget-identifier pattern at the start of the list: the
literal um=constructor, one character of the bracket class (percent, the
digit 3, the letter A, bar or colon), then a non-empty run of characters
other than ampersand, which is captured. -/
def umMatchAt (l : List Char) : Option (List Char) :=
  match stripLead "um=constructor".toList l with
  | none => none
  | some r =>
    match r with
    | c :: rest =>
      if c = '%' || c = '3' || c = 'A' || c = '|' || c = ':' then
        let cap := rest.takeWhile (fun ch => ch ≠ '&')
        if cap.isEmpty then none else some cap
      else none
    | [] => none

/-- re.search for the widget-identifier pattern. -/
def umSearch : List Char → Option (List Char)
  | [] => none
  | c :: rest =>
    match umMatchAt (c :: rest) with
    | some g => some g
    | none => umSearch rest

/-- Scan of all script elements for a constructor URL carrying a widget
identifier; a script matching the substring but not the pattern is
skipped. -/
def scriptScan : List Node → Option String
  | [] => none
  | s :: ss =>
    match s.attr "src" with
    | some src =>
      if src ≠ "" && strHas src "constructor" then
        match umSearch src.toList with
        | some cap =>
          some ("https://yandex.ru/map-widget/v1/?um=constructor:" ++ String.mk cap)
        | none => scriptScan ss
      else scriptScan ss
    | none => scriptScan ss

/-- Walk over the paragraphs following a heading: an iframe with a truthy
src wins; otherwise a ymaps placeholder triggers the script scan, and only
a successful scan returns. -/
def mapFromPs (doc : Node) : List Node → Option String
  | [] => none
  | p :: rest =>
    let iframeHit :=
      match findIn p (tagIs "iframe") with
      | some ifr =>
        match ifr.attr "src" with
        | some s => if s = "" then none else some s
        | none => none
      | none => none
    match iframeHit with
    | some s => some s
    | none =>
      if (findIn p (tagIs "ymaps")).isSome then
        match scriptScan (findAllIn doc (tagIs "script")) with
        | some u => some u
        | none => mapFromPs doc rest
      else mapFromPs doc rest

/-- Walk over the indexed document nodes: each heading whose text contains
the trail name starts a paragraph walk over the paragraphs after it in
document order. -/
def mapFromH2s (doc : Node) (trail_name : String) : List (Nat × Node) → Option String
  | [] => none
  | (i, h2) :: rest =>
    if tagIs "h2" h2 && strHas (textOf h2) trail_name then
      match mapFromPs doc (((descendants doc).drop (i + 1)).filter (tagIs "p")) with
      | some u => some u
      | none => mapFromH2s doc trail_name rest
    else mapFromH2s doc trail_name rest

/-- Embedding of ecoTracs.py find_map_url. -/
def find_map_url (doc : Node) (trail_name : String) : Option String :=
  mapFromH2s doc trail_name (descendants doc).enum

/-- The hardcoded override URL of the one fixed trail name. -/
def ecoHardUrl : String :=
  "https://yandex.ru/maps/80/yuzhno-sakhalinsk/?from=mapframe&l=sat&ll=142.793450%2C46.957413&mode=usermaps&source=mapframe&um=constructor%3A97f3eaa38d056b248e8b2119cb211a5410992ad4c5b2a9decccaa07f43b2defc&utm_source=mapframe&z=16"

/-- A fresh trail from a heading element. -/
def newEcoTrail (el : Node) : EcoTrail :=
  let nd := ecoSplit (clean_text (textOf el))
  { name := nd.1, length := 0, description := nd.2, map_url := none }

/-- Length update of the current trail from a paragraph element. -/
def updEcoLength (el : Node) (t : EcoTrail) : EcoTrail :=
  match lengthSearch (clean_text (textOf el)).toList with
  | some g => { t with length := decToQ (normNum g) }
  | none => t

/-- Finalisation of the trail still current when the loop ends: the one
place where the hardcoded name override is consulted. -/
def ecoFinal (doc : Node) (t : EcoTrail) : EcoTrail :=
  if t.name = "Северная энергия" then { t with map_url := some ecoHardUrl }
  else { t with map_url := find_map_url doc t.name }

/-- Flush of a trail when a new heading starts: always the generic map
search, never the override. -/
def ecoFlush (doc : Node) (t : EcoTrail) : EcoTrail :=
  { t with map_url := find_map_url doc t.name }

/-- The children loop of parse_eco_trails. -/
def ecoLoop (doc : Node) : List Node → Option EcoTrail → List EcoTrail
  | [], none => []
  | [], some t => [ecoFinal doc t]
  | el :: rest, cur =>
    if el.tagOf = some "h2" then
      (match cur with
       | some t => [ecoFlush doc t]
       | none => []) ++ ecoLoop doc rest (some (newEcoTrail el))
    else if tagIs "p" el && cur.isSome then
      ecoLoop doc rest (cur.map (updEcoLength el))
    else ecoLoop doc rest cur

/-- The mandatory formatted-text container of the eco-trail page (the
attribute must be present, with any value). -/
def ecoContainer (doc : Node) : Option Node :=
  findIn doc (fun n => tagIs "div" n && (n.attr "data-formatted-text").isSome)

/-- Embedding of parse_eco_trails: the formatted-text container is
mandatory (HTTPException 500 when absent); its direct children drive the
loop. -/
def parse_eco_trails (doc : Node) : Except HttpErr (List EcoTrail) :=
  match ecoContainer doc with
  | none => .error ⟨500, "Не найден основной контейнер с данными"⟩
  | some cd => .ok (ecoLoop doc cd.childrenOf none)

/-! ## Restaurants (restaurant_parser_api.py)

Each scalar field is located through a fallback chain of heuristics; the
description and image lists are collected from several candidate containers
with membership checks against the list built so far.  For images the
membership check runs on the raw src string while the appended element is
the resolved absolute URL, the asymmetry behind the de-duplication claim.
A failed fetch returns a fresh empty record. -/

/-- A breadcrumb entry. -/
structure BreadcrumbItem where
  text : String
  link : String
deriving Repr, DecidableEq

/-- A restaurant record; list fields default to empty. -/
structure RestaurantData where
  name : Option String := none
  schedule : Option String := none
  address : Option String := none
  phone : Option String := none
  description : List String := []
  images : List String := []
  breadcrumbs : List BreadcrumbItem := []
deriving Repr, DecidableEq

/-- Attribute value equal to one of the listed strings (BeautifulSoup
attrs filter with a list). -/
def attrIn (n : Node) (k : String) (vals : List String) : Bool :=
  match n.attr k with
  | some v => vals.contains v
  | none => false

/-- Truthy attribute access: the value when present and non-empty. -/
def truthyAttr (n : Node) (k : String) : Option String :=
  match n.attr k with
  | some v => if v = "" then none else some v
  | none => none

/-- Name fallback chain: h1 then div with a title or heading class-token
substring, then the first element matching the page-title selector group in
document order. -/
def restNameOf (doc : Node) : Option String :=
  ((findIn doc (fun n => tagIs "h1" n && n.classesOf.any
      (fun x => strHas (pyLower x) "title" || strHas (pyLower x) "heading"))) <|>
   (findIn doc (fun n => tagIs "div" n && n.classesOf.any
      (fun x => strHas (pyLower x) "title" || strHas (pyLower x) "heading"))) <|>
   (findIn doc (fun n => hasClassToken n "page__title" || hasClassToken n "title" ||
      tagIs "h1" n))).map
    (fun e => pyStrip (textOf e))

/-- Address fallback chain: class-token substring, itemprop value, then a
div whose single string mentions a station or address keyword. -/
def restAddressOf (doc : Node) : Option String :=
  ((findIn doc (fun n => tagIs "div" n && n.classesOf.any
      (fun x => strHas (pyLower x) "address" || strHas (pyLower x) "location"))) <|>
   (findIn doc (fun n => tagIs "div" n && attrIn n "itemprop" ["address", "location"])) <|>
   (findIn doc (fun n => tagIs "div" n &&
      (match n.stringOf with
       | some x => strHas (pyLower x) "станция" || strHas (pyLower x) "адрес"
       | none => false)))).map
    (fun e => pyStrip (textOf e))

/-- Phone fallback chain: class-token substring, itemprop value, an anchor
whose href carries a tel scheme, then any element whose single string
contains the country prefix. -/
def restPhoneOf (doc : Node) : Option String :=
  ((findIn doc (fun n => tagIs "div" n && n.classesOf.any
      (fun x => strHas (pyLower x) "phone" || strHas (pyLower x) "tel"))) <|>
   (findIn doc (fun n => tagIs "div" n && attrIn n "itemprop" ["telephone", "phone"])) <|>
   (findIn doc (fun n => tagIs "a" n &&
      (match n.attr "href" with
       | some h => h ≠ "" && strHas h "tel:"
       | none => false))) <|>
   (findIn doc (fun n => (tagIs "div" n || tagIs "span" n || tagIs "a" n) &&
      (match n.stringOf with
       | some x => strHas x "+7"
       | none => false)))).map
    (fun e => pyStrip (textOf e))

/-- Whitespace normalisation of the schedule value: strip then join of the
whitespace-separated words by single spaces. -/
def pyJoinSplit (s : String) : String :=
  String.mk (collapseAux false (pyStripList s.toList))

/-- Schedule fallback chain: class-token substring, itemprop value, a div
whose single string carries a weekday marker, then the attribute-substring
selector group over the joined class value. -/
def restScheduleOf (doc : Node) : Option String :=
  ((findIn doc (fun n => tagIs "div" n && n.classesOf.any
      (fun x => strHas (pyLower x) "schedule" || strHas (pyLower x) "time" ||
        strHas (pyLower x) "hour"))) <|>
   (findIn doc (fun n => tagIs "div" n && attrIn n "itemprop" ["openingHours", "workingHours"])) <|>
   (findIn doc (fun n => tagIs "div" n &&
      (match n.stringOf with
       | some x => strHas x "Пн-" || strHas x "Вт-" || strHas x "Пн–" || strHas x "время работы"
       | none => false))) <|>
   (findIn doc (fun n =>
      strHas (" ".intercalate n.classesOf) "schedule" ||
      strHas (" ".intercalate n.classesOf) "time" ||
      strHas (" ".intercalate n.classesOf) "hour"))).map
    (fun e => pyJoinSplit (textOf e))

/-- The formatted-text container of the restaurant page (attrs filter with
an empty-string value). -/
def fmtDivR (doc : Node) : Option Node :=
  findIn doc (fun n => tagIs "div" n && n.attr "data-formatted-text" = some "")

/-- First description loop: non-empty stripped paragraph texts appended
when not yet present. -/
def descStep1 (acc : List String) (p : Node) : List String :=
  let t := pyStrip (textOf p)
  if t ≠ "" ∧ t ∉ acc then acc ++ [t] else acc

/-- Noise marker test of the second description loop. -/
def isNoiseDesc (t : String) : Bool :=
  strHas (pyLower t) "©" || strHas (pyLower t) "®" ||
  strHas (pyLower t) "™" || strHas (pyLower t) "cookies"

/-- Second description loop: additionally drops noise paragraphs. -/
def descStep2 (acc : List String) (p : Node) : List String :=
  let t := pyStrip (textOf p)
  if t ≠ "" ∧ t ∉ acc ∧ isNoiseDesc t = false then acc ++ [t] else acc

/-- The concatenated description block queries. -/
def descBlocks (doc : Node) : List Node :=
  findAllIn doc (fun n => (tagIs "div" n || tagIs "p" n) &&
    n.attr "itemprop" = some "description") ++
  findAllIn doc (fun n => (tagIs "div" n || tagIs "p" n) &&
    n.classesOf.any (fun x => pyLower x = "description")) ++
  findAllIn doc (fun n => tagIs "div" n && hasClassToken n "page__content")

/-- Paragraphs of a description block (the block itself when it is a
paragraph). -/
def blockParas (b : Node) : List Node :=
  if b.tagOf ≠ some "p" then findAllIn b (tagIs "p") else [b]

/-- The description list: formatted-text paragraphs first, then the block
paragraphs with the noise filter. -/
def restDescriptions (doc : Node) : List String :=
  let d1 :=
    (match fmtDivR doc with
     | some d => findAllIn d (tagIs "p")
     | none => []).foldl descStep1 []
  (descBlocks doc).foldl (fun acc b => (blockParas b).foldl descStep2 acc) d1

/-- Absolute-URL test used before resolution. -/
def isAbsUrl (s : String) : Bool :=
  strStarts s "http://" || strStarts s "https://"

/-- Resolution against the site base: leading slashes of a relative src are
stripped and the base prepended. -/
def resolveImg (src : String) : String :=
  if isAbsUrl src then src
  else "https://ski-gv.ru/" ++ String.mk (src.toList.dropWhile (fun c => c = '/'))

/-- Truthy src of the designated main image. -/
def mainImgSrc (doc : Node) : Option String :=
  (findIn doc (fun n => tagIs "img" n && hasClassToken n "page__main-image")).bind
    (fun m => truthyAttr m "src")

/-- The concatenated image candidate queries: centred images, images with a
photo or image class-token substring, then gallery containers. -/
def imgCandidates (doc : Node) : List Node :=
  findAllIn doc (fun n => tagIs "img" n && hasClassToken n "center") ++
  findAllIn doc (fun n => tagIs "img" n && n.classesOf.any
    (fun x => strHas (pyLower x) "photo" || strHas (pyLower x) "image")) ++
  findAllIn doc (fun n => tagIs "div" n && n.classesOf.any
    (fun x => strHas (pyLower x) "gallery" || strHas (pyLower x) "image"))

/-- Raw candidate src: for a gallery container the href or src of its first
anchor or image, for an image its src; truthiness as in the source. -/
def candSrc (n : Node) : Option String :=
  if n.tagOf = some "div" then
    match (findIn n (tagIs "a")) <|> (findIn n (tagIs "img")) with
    | some link => (truthyAttr link "href") <|> (truthyAttr link "src")
    | none => none
  else truthyAttr n "src"

/-- Append step of the image loop: the membership check runs on the raw
src, the appended element is the resolved URL. -/
def addImg (acc : List String) (src : String) : List String :=
  if src ∉ acc then acc ++ [resolveImg src] else acc

/-- The initial image list: the resolved main image when present. -/
def mainImgList (doc : Node) : List String :=
  match mainImgSrc doc with
  | some s => [resolveImg s]
  | none => []

/-- One candidate of the image loop. -/
def imgStep (acc : List String) (n : Node) : List String :=
  match candSrc n with
  | some s => addImg acc s
  | none => acc

/-- The image list: resolved main image first, then the candidate loop. -/
def restImages (doc : Node) : List String :=
  (imgCandidates doc).foldl imgStep (mainImgList doc)

/-- Breadcrumb anchors with truthy hrefs, as (text, link) pairs. -/
def restBreadcrumbs (doc : Node) : List BreadcrumbItem :=
  (findAllIn doc (fun n => tagIs "a" n && n.classesOf.any
    (fun x => strHas (pyLower x) "breadcrumb" || strHas (pyLower x) "bread" ||
      strHas (pyLower x) "nav"))).filterMap
    (fun crumb => (truthyAttr crumb "href").map
      (fun h => ⟨pyStrip (textOf crumb), h⟩))

/-- The record extracted from a fetched restaurant page. -/
def parseRestaurantDoc (doc : Node) : RestaurantData :=
  { name := restNameOf doc
    schedule := restScheduleOf doc
    address := restAddressOf doc
    phone := restPhoneOf doc
    description := restDescriptions doc
    images := restImages doc
    breadcrumbs := restBreadcrumbs doc }

/-- Embedding of parse_single_restaurant: the except clause around the
fetch prints and returns a fresh empty RestaurantData. -/
def parse_single_restaurant (fetch : String → Except String Node) (url : String) :
    RestaurantData :=
  match fetch url with
  | .error _ => {}
  | .ok doc => parseRestaurantDoc doc

/-! ## Lemmas about the numeric primitives -/

/-- A digit character is not whitespace. -/
theorem digit_not_space {c : Char} (h : pyIsDigit c = true) : pyIsSpace c = false := by
  simp only [pyIsDigit, Bool.and_eq_true, decide_eq_true_eq] at h
  simp only [pyIsSpace, Bool.or_eq_false_iff, decide_eq_false_iff_not]
  omega

/-- Stripping leaves an all-digit list unchanged. -/
theorem pyStripList_of_digits (l : List Char) (h : ∀ c ∈ l, pyIsDigit c = true) :
    pyStripList l = l := by
  unfold pyStripList
  have h1 : l.dropWhile pyIsSpace = l := by
    cases l with
    | nil => rfl
    | cons c r =>
      rw [List.dropWhile_cons]
      simp [digit_not_space (h c (by simp))]
  rw [h1]
  have h2 : l.reverse.dropWhile pyIsSpace = l.reverse := by
    cases hr : l.reverse with
    | nil => rfl
    | cons c r =>
      have hc : c ∈ l := by
        have hm : c ∈ l.reverse := by rw [hr]; exact List.mem_cons_self c r
        simpa using hm
      rw [List.dropWhile_cons]
      simp [digit_not_space (h c hc)]
  rw [h2, List.reverse_reverse]

/-- An all-digit list has no consecutive underscores. -/
theorem noDoubleUnd_of_digits (l : List Char) (h : ∀ c ∈ l, pyIsDigit c = true) :
    noDoubleUnd l = true := by
  induction l with
  | nil => rfl
  | cons a r ih =>
    cases r with
    | nil => rfl
    | cons b r2 =>
      have ha : pyIsDigit a = true := h a (by simp)
      have ha2 : a ≠ '_' := by
        intro e; subst e; exact absurd ha (by decide)
      show (!(a = '_' && b = '_') && noDoubleUnd (b :: r2)) = true
      have hrest : noDoubleUnd (b :: r2) = true :=
        ih (fun c hc => h c (List.mem_cons_of_mem a hc))
      simp [ha2, hrest]

/-- The last element with default of a non-empty list is a member. -/
theorem getLastD_mem (l : List Char) (d : Char) (h : l ≠ []) : l.getLastD d ∈ l := by
  induction l generalizing d with
  | nil => exact absurd rfl h
  | cons a r ih =>
    rw [List.getLastD_cons]
    cases r with
    | nil => simp [List.getLastD]
    | cons b r2 => exact List.mem_cons_of_mem a (ih a (by simp))

/-- A non-empty all-digit list passes the int shape test. -/
theorem okDigitsU_of_digits (l : List Char) (hne : l ≠ []) (h : ∀ c ∈ l, pyIsDigit c = true) :
    okDigitsU l = true := by
  unfold okDigitsU
  have hempty : l.isEmpty = false := by
    cases l with
    | nil => exact absurd rfl hne
    | cons a r => rfl
  have hall : l.all (fun c => pyIsDigit c || c = '_') = true := by
    rw [List.all_eq_true]
    intro c hc
    simp [h c hc]
  have hhead : pyIsDigit (l.headD 'x') = true := by
    cases l with
    | nil => exact absurd rfl hne
    | cons a r => exact h a (by simp)
  have hlast : pyIsDigit (l.getLastD 'x') = true := h _ (getLastD_mem l 'x' hne)
  simp only [hempty, Bool.not_false, hall, hhead, hlast, noDoubleUnd_of_digits l h,
    Bool.and_self, Bool.and_true, Bool.true_and]

/-- Python int on a non-empty all-digit string returns its base-10 value. -/
theorem pyInt_of_digits (l : List Char) (hne : l ≠ []) (h : ∀ c ∈ l, pyIsDigit c = true) :
    pyInt (String.mk l) = some (digitsVal l) := by
  unfold pyInt
  rw [show (String.mk l).toList = l from rfl, pyStripList_of_digits l h]
  have hfil : l.filter pyIsDigit = l := List.filter_eq_self.mpr h
  cases l with
  | nil => exact absurd rfl hne
  | cons c r =>
    have hc := h c (by simp)
    split
    next x heq =>
      have hcp : c = '+' := (List.cons_eq_cons.mp heq).1
      subst hcp
      exact absurd hc (by decide)
    next x heq =>
      have hcm : c = '-' := (List.cons_eq_cons.mp heq).1
      subst hcm
      exact absurd hc (by decide)
    next =>
      rw [okDigitsU_of_digits (c :: r) (by simp) h, hfil]
      simp

/-- C7: the price normaliser maps the cell text of one thousand five
hundred roubles with an interior space to the integer 1500, and maps the
literal no-value marker to the absent value, not zero. -/
theorem clean_price_round_trip :
    clean_price "1 500 ₽" = .ok (some 1500) ∧ clean_price "-" = .ok none :=
  ⟨rfl, rfl⟩

/-- C10: on every input string clean_price returns (without raising) either
the absent value or a non-negative integer, and any string containing no
digit character at all yields the absent value. -/
theorem clean_price_total (s : String) :
    (∃ v, clean_price s = .ok v ∧ ∀ n, v = some n → 0 ≤ n) ∧
    ((∀ c ∈ s.toList, pyIsDigit c = false) → clean_price s = .ok none) := by
  constructor
  · unfold clean_price
    by_cases hs : s = "-"
    · exact ⟨none, by rw [if_pos hs], by simp⟩
    · rw [if_neg hs]
      dsimp only
      by_cases hp : (s.toList.filter pyIsDigit).isEmpty
      · refine ⟨none, ?_, by simp⟩
        rw [hp]
        rfl
      · have hpe : (s.toList.filter pyIsDigit).isEmpty = false :=
          Bool.not_eq_true _ ▸ eq_false_of_ne_true hp
        have hne : s.toList.filter pyIsDigit ≠ [] := by
          intro e
          rw [e] at hpe
          exact absurd hpe (by decide)
        have hall : ∀ c ∈ s.toList.filter pyIsDigit, pyIsDigit c = true :=
          fun c hc => List.of_mem_filter hc
        refine ⟨some (digitsVal (s.toList.filter pyIsDigit)), ?_, ?_⟩
        · rw [hpe]
          simp only [Bool.not_false, if_true]
          rw [pyInt_of_digits _ hne hall]
          rfl
        · intro n hn
          have hd : n = (digitsVal (s.toList.filter pyIsDigit) : Int) := by
            simpa using hn.symm
          subst hd
          exact Int.natCast_nonneg _
  · intro hnd
    unfold clean_price
    by_cases hs : s = "-"
    · rw [if_pos hs]
    · rw [if_neg hs]
      have hfil : s.toList.filter pyIsDigit = [] := by
        rw [List.filter_eq_nil_iff]
        intro c hc
        simp [hnd c hc]
      dsimp only
      rw [hfil]
      rfl

/-- Witness for C10 at a digit-free concrete input. -/
theorem clean_price_total_witness : clean_price "бесплатно" = .ok none :=
  (clean_price_total "бесплатно").2 (by decide)

/-- C3: a weather document with no current-weather container is a hard
structure failure for the whole document, while a document whose container
is present but lacks the temperature element yields a snapshot whose
temperature is absent and whose remaining fields each carry exactly the
value of their own independent extraction. -/
theorem weather_structure_policy :
    (∀ doc, findCard doc = none →
      weather_from_doc doc = .error ⟨404, "Weather data not found"⟩) ∧
    (∀ doc card, findCard doc = some card → tempElem card = none →
      weather_from_doc doc = .ok
        { temperature := none
          condition := conditionOf card
          wind := windOf card
          sunrise := (wxParamsOf card).sunrise
          sunset := (wxParamsOf card).sunset
          humidity := (wxParamsOf card).humidity
          pressure := (wxParamsOf card).pressure
          icon_url := iconUrlOf card }) := by
  constructor
  · intro doc h
    unfold weather_from_doc
    rw [h]
  · intro doc card hc ht
    unfold weather_from_doc
    rw [hc]
    unfold weatherOfCard temperatureOf
    dsimp only
    rw [ht]
    rfl

/-- Weather document without the current-weather card. -/
def docW1 : Node := .elem "[document]" [] [] [.elem "div" ["weather"] [] []]

/-- A current-weather card carrying every field except the temperature
element. -/
def cardW : Node := .elem "div" ["weather__current-part"] [] [
  .elem "img" ["weather-card__icon"] [("src", "/i.png")] [],
  .elem "span" ["weather-condition"] [] [.text "Ясно"],
  .elem "p" [] [] [.text "Ветер 5 м/с"],
  .elem "ul" ["weather-card__params"] [] [
    .elem "li" [] [] [.elem "p" [] [] [.text "Восход"], .elem "p" [] [] [.text "08:10"]],
    .elem "li" [] [] [.elem "p" [] [] [.text "Заход"], .elem "p" [] [] [.text "17:20"]],
    .elem "li" [] [] [.elem "p" [] [] [.text "Влажность"], .elem "p" [] [] [.text "50%"]],
    .elem "li" [] [] [.elem "p" [] [] [.text "Давление"], .elem "p" [] [] [.text "760 мм"]]]]

/-- Weather document whose card is cardW. -/
def docW2 : Node := .elem "[document]" [] [] [cardW]

/-- Witness for C3: the two concrete weather documents. -/
theorem weather_structure_policy_witness :
    weather_from_doc docW1 = .error ⟨404, "Weather data not found"⟩ ∧
    weather_from_doc docW2 = .ok
      { temperature := none, condition := some "Ясно", wind := some "Ветер 5 м/с",
        sunrise := some "08:10", sunset := some "17:20", humidity := some "50%",
        pressure := some "760 мм", icon_url := some "/i.png" } :=
  ⟨weather_structure_policy.1 docW1 rfl,
   weather_structure_policy.2 docW2 cardW rfl rfl⟩

/-- C4: the weekend defaults of the lift-schedule extractor are injected
exactly when the lift name contains the designated substring and the
corresponding weekend field is still absent after the row scan; in every
other case each field keeps its row-derived value, and the workday field is
never touched by the override. -/
theorem lift_weekend_override (rows : List Node) (name : String) :
    (extract_schedule rows name).workdays = (rowSchedule rows).workdays ∧
    (extract_schedule rows name).saturday =
      (if strHas name "Запад" = true ∧ (rowSchedule rows).saturday = none then
        some "09:00-22:00" else (rowSchedule rows).saturday) ∧
    (extract_schedule rows name).sunday =
      (if strHas name "Запад" = true ∧ (rowSchedule rows).sunday = none then
        some "09:00-21:00" else (rowSchedule rows).sunday) := by
  unfold extract_schedule
  dsimp only
  by_cases hz : strHas name "Запад" = true
  · rw [if_pos hz]
    by_cases hsun : (rowSchedule rows).sunday = none
    · rw [if_pos hsun]
      by_cases hsat : (rowSchedule rows).saturday = none
      · simp [hz, hsun, hsat]
      · simp [hz, hsun, hsat]
    · rw [if_neg hsun]
      by_cases hsat : (rowSchedule rows).saturday = none
      · simp [hz, hsun, hsat]
      · simp [hz, hsun, hsat]
  · rw [if_neg hz]
    simp [hz]

/-- The style stage of main.py difficulty expressed through the claim-side
suffix: both run the same substring checks in the same order. -/
theorem styleDifficulty_eq_suffix (block : Node) :
    styleDifficulty block =
      (match styleSuffixOf block with
       | some k =>
         if k = 1 then "Простая"
         else if k = 2 then "Средняя"
         else if k = 3 then "Сложная"
         else "Очень сложная"
       | none => "Не указано") := by
  unfold styleDifficulty styleSuffixOf
  cases hn : numberElem block with
  | none => rfl
  | some e =>
    dsimp only
    by_cases h0 : e.classesOf.isEmpty = true
    · have hcl : e.classesOf = [] := List.isEmpty_iff.mp h0
      rw [hcl]
      rfl
    · have h0f : e.classesOf.isEmpty = false := by
        rwa [Bool.not_eq_true] at h0
      rw [h0f]
      by_cases h1 : e.classesOf.any (fun c => strHas c "track-option__number_style_1") = true
      · simp [h1]
      · rw [Bool.not_eq_true] at h1
        by_cases h2 : e.classesOf.any (fun c => strHas c "track-option__number_style_2") = true
        · simp [h1, h2]
        · rw [Bool.not_eq_true] at h2
          by_cases h3 : e.classesOf.any (fun c => strHas c "track-option__number_style_3") = true
          · simp [h1, h2, h3]
          · rw [Bool.not_eq_true] at h3
            by_cases h4 : e.classesOf.any (fun c => strHas c "track-option__number_style_4") = true
            · simp [h1, h2, h3, h4]
            · rw [Bool.not_eq_true] at h4
              simp [h1, h2, h3, h4]

/-- A track block whose number element carries no style class and displays
a non-numeric value. -/
def blockC1 : Node := .elem "div" ["track-option"] [] [
  .elem "div" ["track-option__name"] [] [.text "Трасса"],
  .elem "div" ["track-option__number"] [] [.text "A"]]

/-- Counterexample to C1: on a block with no style class and an
unparseable display number the code assigns the medium literal while the
claimed policy assigns the unknown placeholder. -/
theorem difficulty_policy_counterexample :
    trackDifficulty blockC1 = "Средняя" ∧ claimDifficulty blockC1 = "Не указано" ∧
    trackDifficulty blockC1 ≠ claimDifficulty blockC1 :=
  ⟨rfl, rfl, by decide⟩

/-- C1 as amended: the two-stage precedence holds exactly, except that a
block with no style class whose display number string is present but does
not parse as an integer is classified as the medium literal; the unknown
placeholder occurs only when the number element is absent (placeholder
display string). -/
theorem difficulty_policy_amended (block : Node) :
    trackDifficulty block = claimDifficultyAmended block := by
  unfold trackDifficulty claimDifficultyAmended
  dsimp only
  rw [styleDifficulty_eq_suffix]
  cases hx : styleSuffixOf block with
  | none =>
    by_cases hnum : numberText block = "Не указано"
    · simp [hnum]
    · simp [hnum]
  | some k =>
    dsimp only
    by_cases hk1 : k = 1
    · subst hk1
      rw [if_neg (fun h => absurd h.1 (by decide))]
    · rw [if_neg hk1]
      by_cases hk2 : k = 2
      · subst hk2
        rw [if_neg (fun h => absurd h.1 (by decide))]
      · rw [if_neg hk2]
        by_cases hk3 : k = 3
        · subst hk3
          rw [if_neg (fun h => absurd h.1 (by decide))]
        · rw [if_neg hk3]
          rw [if_neg (fun h => absurd h.1 (by decide))]

/-! ## Lemmas for the stored time-range shape -/

/-- Everything taken by the maximal munch satisfies the predicate. -/
theorem spanD_fst_all (p : Char → Bool) (l : List Char) :
    ∀ c ∈ (spanD p l).1, p c = true := by
  induction l with
  | nil => intro c hc; simp [spanD] at hc
  | cons a r ih =>
    intro c hc
    by_cases hp : p a = true
    · rw [spanD, if_pos hp] at hc
      rcases List.mem_cons.mp hc with h | h
      · rw [h]; exact hp
      · exact ih c h
    · rw [spanD, if_neg hp] at hc
      simp at hc

/-- The maximal munch consumes a satisfying segment up to a failing
character. -/
theorem spanD_append_of (p : Char → Bool) (d : List Char) (hd : ∀ c ∈ d, p c = true)
    (x : Char) (hx : p x = false) (rest : List Char) :
    spanD p (d ++ x :: rest) = (d, x :: rest) := by
  induction d with
  | nil => simp [spanD, hx]
  | cons a r ih =>
    have ha : p a = true := hd a (by simp)
    rw [List.cons_append, spanD, if_pos ha,
      ih (fun c hc => hd c (List.mem_cons_of_mem a hc))]

/-- The maximal munch consumes an entirely satisfying list. -/
theorem spanD_all_of (p : Char → Bool) (d : List Char) (hd : ∀ c ∈ d, p c = true) :
    spanD p d = (d, []) := by
  induction d with
  | nil => rfl
  | cons a r ih =>
    have ha : p a = true := hd a (by simp)
    rw [spanD, if_pos ha, ih (fun c hc => hd c (List.mem_cons_of_mem a hc))]

/-- The four groups of a successful time-phrase match are non-empty digit
lists. -/
theorem timeAt_groups {l : List Char}
    {q : List Char × List Char × List Char × List Char} (h : timeAt l = some q) :
    (∀ c ∈ q.1, pyIsDigit c = true) ∧ q.1 ≠ [] ∧
    (∀ c ∈ q.2.1, pyIsDigit c = true) ∧ q.2.1 ≠ [] ∧
    (∀ c ∈ q.2.2.1, pyIsDigit c = true) ∧ q.2.2.1 ≠ [] ∧
    (∀ c ∈ q.2.2.2, pyIsDigit c = true) ∧ q.2.2.2 ≠ [] := by
  unfold timeAt at h
  split at h
  · exact absurd h (by simp)
  next r hsl =>
    by_cases h1 : (spanD pyIsDigit r).1.isEmpty = true
    · rw [if_pos h1] at h; exact absurd h (by simp)
    · rw [if_neg h1] at h
      split at h
      · exact absurd h (by simp)
      next r2 hsl2 =>
        by_cases h2 : (spanD pyIsDigit r2).1.isEmpty = true
        · rw [if_pos h2] at h; exact absurd h (by simp)
        · rw [if_neg h2] at h
          split at h
          · exact absurd h (by simp)
          next r4 hsl4 =>
            by_cases h3 : (spanD pyIsDigit r4).1.isEmpty = true
            · rw [if_pos h3] at h; exact absurd h (by simp)
            · rw [if_neg h3] at h
              split at h
              · exact absurd h (by simp)
              next r6 hsl6 =>
                by_cases h4 : (spanD pyIsDigit r6).1.isEmpty = true
                · rw [if_pos h4] at h; exact absurd h (by simp)
                · rw [if_neg h4] at h
                  have hq := Option.some.inj h
                  subst hq
                  refine ⟨spanD_fst_all _ _, ?_, spanD_fst_all _ _, ?_,
                    spanD_fst_all _ _, ?_, spanD_fst_all _ _, ?_⟩ <;>
                    simp_all [List.isEmpty_iff]

/-- A successful search is a successful match at some suffix. -/
theorem searchTime_timeAt {l : List Char}
    {q : List Char × List Char × List Char × List Char} (h : searchTime l = some q) :
    ∃ l2, timeAt l2 = some q := by
  induction l with
  | nil => simp [searchTime] at h
  | cons c r ih =>
    rw [searchTime] at h
    cases ht : timeAt (c :: r) with
    | some q2 =>
      rw [ht] at h
      exact ⟨c :: r, ht.trans (congrArg some (Option.some.inj h))⟩
    | none =>
      rw [ht] at h
      exact ih h

/-- The range string assembled from four non-empty digit groups has the
digits-colon-digits-hyphen-digits-colon-digits shape. -/
theorem rangeShape_mk (d1 d2 d3 d4 : List Char)
    (h1 : ∀ c ∈ d1, pyIsDigit c = true) (n1 : d1 ≠ [])
    (h2 : ∀ c ∈ d2, pyIsDigit c = true) (n2 : d2 ≠ [])
    (h3 : ∀ c ∈ d3, pyIsDigit c = true) (n3 : d3 ≠ [])
    (h4 : ∀ c ∈ d4, pyIsDigit c = true) (n4 : d4 ≠ []) :
    rangeShape (String.mk (d1 ++ ':' :: (d2 ++ '-' :: (d3 ++ ':' :: d4)))) = true := by
  unfold rangeShape
  rw [show (String.mk (d1 ++ ':' :: (d2 ++ '-' :: (d3 ++ ':' :: d4)))).toList =
    d1 ++ ':' :: (d2 ++ '-' :: (d3 ++ ':' :: d4)) from rfl]
  rw [spanD_append_of pyIsDigit d1 h1 ':' (by decide) _]
  simp only [stripLead, beq_self_eq_true, if_true]
  rw [spanD_append_of pyIsDigit d2 h2 '-' (by decide) _]
  simp only [stripLead, beq_self_eq_true, if_true]
  rw [spanD_append_of pyIsDigit d3 h3 ':' (by decide) _]
  simp only [stripLead, beq_self_eq_true, if_true]
  rw [spanD_all_of pyIsDigit d4 h4]
  dsimp only
  have e1 : d1.isEmpty = false := by
    cases d1 with
    | nil => exact absurd rfl n1
    | cons a r => rfl
  have e2 : d2.isEmpty = false := by
    cases d2 with
    | nil => exact absurd rfl n2
    | cons a r => rfl
  have e3 : d3.isEmpty = false := by
    cases d3 with
    | nil => exact absurd rfl n3
    | cons a r => rfl
  have e4 : d4.isEmpty = false := by
    cases d4 with
    | nil => exact absurd rfl n4
    | cons a r => rfl
  simp [e1, e2, e3, e4]

/-- Every range string stored by the row scan has the digit-group shape. -/
theorem timeRangeOf_shape {text : String} {r : String} (h : timeRangeOf text = some r) :
    rangeShape r = true := by
  unfold timeRangeOf at h
  cases hs : searchTime text.toList with
  | none => rw [hs] at h; exact absurd h (by simp)
  | some q =>
    rw [hs] at h
    simp only [Option.map_some'] at h
    have hr : String.mk (q.1 ++ ':' :: (q.2.1 ++ '-' :: (q.2.2.1 ++ ':' :: q.2.2.2))) = r :=
      Option.some.inj h
    obtain ⟨l2, hta⟩ := searchTime_timeAt hs
    obtain ⟨g1, n1, g2, n2, g3, n3, g4, n4⟩ := timeAt_groups hta
    rw [← hr]
    exact rangeShape_mk _ _ _ _ g1 n1 g2 n2 g3 n3 g4 n4

/-- Shape invariant of a schedule: every present field has the digit-group
range shape. -/
def schedShapeOk (s : Sched) : Prop :=
  (∀ v, s.workdays = some v → rangeShape v = true) ∧
  (∀ v, s.saturday = some v → rangeShape v = true) ∧
  (∀ v, s.sunday = some v → rangeShape v = true)

/-- One row step preserves the shape invariant. -/
theorem schedStep_shape (s : Sched) (row : Node) (h : schedShapeOk s) :
    schedShapeOk (schedStep s row) := by
  obtain ⟨hw, hsat, hsun⟩ := h
  unfold schedStep
  dsimp only
  split_ifs with c1 c2 c3 c4
  · cases htr : timeRangeOf (getTextStrip row) with
    | none => exact ⟨hw, hsat, hsun⟩
    | some r =>
      exact ⟨fun v hv => (Option.some.inj hv) ▸ timeRangeOf_shape htr, hsat, hsun⟩
  · cases htr : timeRangeOf (getTextStrip row) with
    | none => exact ⟨hw, hsat, hsun⟩
    | some r =>
      exact ⟨hw, fun v hv => (Option.some.inj hv) ▸ timeRangeOf_shape htr,
        fun v hv => (Option.some.inj hv) ▸ timeRangeOf_shape htr⟩
  · cases htr : timeRangeOf (getTextStrip row) with
    | none => exact ⟨hw, hsat, hsun⟩
    | some r =>
      exact ⟨hw, fun v hv => (Option.some.inj hv) ▸ timeRangeOf_shape htr, hsun⟩
  · cases htr : timeRangeOf (getTextStrip row) with
    | none => exact ⟨hw, hsat, hsun⟩
    | some r =>
      exact ⟨hw, hsat, fun v hv => (Option.some.inj hv) ▸ timeRangeOf_shape htr⟩
  · exact ⟨hw, hsat, hsun⟩

/-- The row scan satisfies the shape invariant. -/
theorem rowSchedule_shape (rows : List Node) : schedShapeOk (rowSchedule rows) := by
  unfold rowSchedule
  have hgen : ∀ (rs : List Node) (s : Sched), schedShapeOk s → schedShapeOk (rs.foldl schedStep s) := by
    intro rs
    induction rs with
    | nil => intro s hs; exact hs
    | cons a r ih => intro s hs; exact ih _ (schedStep_shape s a hs)
  refine hgen rows {} ⟨?_, ?_, ?_⟩ <;> intro v hv <;> exact absurd hv (by simp)

/-- The full extractor satisfies the shape invariant: the injected weekend
defaults also have the digit-group shape. -/
theorem extract_schedule_shape (rows : List Node) (name : String) :
    schedShapeOk (extract_schedule rows name) := by
  obtain ⟨hw, hsat, hsun⟩ := rowSchedule_shape rows
  unfold extract_schedule
  dsimp only
  by_cases hz : strHas name "Запад" = true
  · rw [if_pos hz]
    by_cases hsu : (rowSchedule rows).sunday = none
    · rw [if_pos hsu]
      by_cases hsa : (rowSchedule rows).saturday = none
      · rw [if_pos (by simpa using hsa)]
        refine ⟨fun v hv => hw v (by simpa using hv), ?_, ?_⟩
        · intro v hv
          simp only at hv
          rw [show v = "09:00-22:00" from (Option.some.inj hv).symm]
          decide
        · intro v hv
          simp only at hv
          rw [show v = "09:00-21:00" from (Option.some.inj hv).symm]
          decide
      · rw [if_neg (by simpa using hsa)]
        refine ⟨fun v hv => hw v (by simpa using hv), fun v hv => hsat v (by simpa using hv), ?_⟩
        intro v hv
        simp only at hv
        rw [show v = "09:00-21:00" from (Option.some.inj hv).symm]
        decide
    · rw [if_neg hsu]
      by_cases hsa : (rowSchedule rows).saturday = none
      · rw [if_pos hsa]
        refine ⟨fun v hv => hw v (by simpa using hv), ?_, fun v hv => hsun v (by simpa using hv)⟩
        intro v hv
        simp only at hv
        rw [show v = "09:00-22:00" from (Option.some.inj hv).symm]
        decide
      · rw [if_neg hsa]
        exact ⟨hw, hsat, hsun⟩
  · rw [if_neg hz]
    exact ⟨hw, hsat, hsun⟩

/-- Every lift record of the table loop satisfies the shape invariant. -/
theorem liftsOfTables_shape : ∀ (ts : List Node) (lifts : List LiftInfo),
    liftsOfTables ts = .ok lifts → ∀ li ∈ lifts, schedShapeOk li.schedule := by
  intro ts
  induction ts with
  | nil =>
    intro lifts h li hli
    rw [liftsOfTables] at h
    rw [← Except.ok.inj h] at hli
    simp at hli
  | cons t ts ih =>
    intro lifts h li hli
    rw [liftsOfTables] at h
    cases hcap : findIn t (tagIs "caption") with
    | none =>
      rw [hcap] at h
      exact ih lifts h li hli
    | some cap =>
      rw [hcap] at h
      dsimp only at h
      cases hp : findIn cap (tagIs "p") with
      | none => rw [hp] at h; simp at h
      | some p =>
        rw [hp] at h
        dsimp only at h
        cases hrec : liftsOfTables ts with
        | error e => rw [hrec] at h; simp [Except.map] at h
        | ok rest =>
          rw [hrec] at h
          simp only [Except.map] at h
          rw [← Except.ok.inj h] at hli
          rcases List.mem_cons.mp hli with he | he
          · rw [he]
            exact extract_schedule_shape _ _
          · exact ih rest hrec li he

/-- C5 as amended: every schedule field of every lift record produced by
parse_html is either absent or a string of the shape digits, colon, digits,
hyphen, digits, colon, digits with non-empty digit groups of arbitrary
length; no two-digit or clock-validity check is performed. -/
theorem lift_schedule_field_shape (doc : Node) (lifts : List LiftInfo)
    (h : parse_html doc = .ok lifts) :
    ∀ li ∈ lifts,
      (∀ v, li.schedule.workdays = some v → rangeShape v = true) ∧
      (∀ v, li.schedule.saturday = some v → rangeShape v = true) ∧
      (∀ v, li.schedule.sunday = some v → rangeShape v = true) := by
  unfold parse_html at h
  exact liftsOfTables_shape _ lifts h

/-- A lift table whose workday row carries a one-digit hour and a
three-digit hour with minutes beyond sixty. -/
def docC5 : Node := .elem "[document]" [] [] [
  .elem "table" [] [] [
    .elem "caption" [] [] [.elem "p" [] [] [.text "Восточный"]],
    .elem "tr" [] [] [.text "Понедельник-пятница: с 9:00 до 177:99"]]]

/-- Counterexample to C5: the extractor stores the raw matched range, which
is not a validated two-digit clock range. -/
theorem lift_schedule_counterexample :
    parse_html docC5 =
      .ok [⟨"Восточный", { workdays := some "9:00-177:99", saturday := none, sunday := none }⟩] ∧
    hhmmRangeValid "9:00-177:99" = false :=
  ⟨rfl, rfl⟩

/-- A lift table with a well-formed workday row. -/
def docC5w : Node := .elem "[document]" [] [] [
  .elem "table" [] [] [
    .elem "caption" [] [] [.elem "p" [] [] [.text "Восточный"]],
    .elem "tr" [] [] [.text "Понедельник-пятница: с 09:00 до 17:00"]]]

/-- Witness for C5 at a concrete document. -/
theorem lift_schedule_field_shape_witness : rangeShape "09:00-17:00" = true :=
  (lift_schedule_field_shape docC5w
      [⟨"Восточный", { workdays := some "09:00-17:00", saturday := none, sunday := none }⟩] rfl
      ⟨"Восточный", { workdays := some "09:00-17:00", saturday := none, sunday := none }⟩
      (by simp)).1 "09:00-17:00" rfl

/-! ## Lemmas for the eco-trail loop -/

/-- With a current trail in hand, the loop output always ends in the
finalised current trail. -/
theorem ecoLoop_last_some (doc : Node) : ∀ (children : List Node) (t : EcoTrail),
    ∃ pre t2, ecoLoop doc children (some t) = pre ++ [ecoFinal doc t2] := by
  intro children
  induction children with
  | nil => intro t; exact ⟨[], t, rfl⟩
  | cons el rest ih =>
    intro t
    simp only [ecoLoop]
    by_cases h2 : el.tagOf = some "h2"
    · rw [if_pos h2]
      obtain ⟨pre, t2, he⟩ := ih (newEcoTrail el)
      refine ⟨[ecoFlush doc t] ++ pre, t2, ?_⟩
      rw [he, List.append_assoc]
    · rw [if_neg h2]
      by_cases hp : (tagIs "p" el && (some t).isSome) = true
      · rw [if_pos hp]
        exact ih (updEcoLength el t)
      · rw [if_neg hp]
        exact ih t

/-- Without a current trail the loop output is empty or ends in a
finalised trail. -/
theorem ecoLoop_last_none (doc : Node) (children : List Node) :
    ecoLoop doc children none = [] ∨
    ∃ pre t2, ecoLoop doc children none = pre ++ [ecoFinal doc t2] := by
  induction children with
  | nil => left; rfl
  | cons el rest ih =>
    simp only [ecoLoop]
    by_cases h2 : el.tagOf = some "h2"
    · rw [if_pos h2]
      right
      obtain ⟨pre, t2, he⟩ := ecoLoop_last_some doc rest (newEcoTrail el)
      exact ⟨pre, t2, by rw [he]; rfl⟩
    · rw [if_neg h2]
      by_cases hp : (tagIs "p" el && (none : Option EcoTrail).isSome) = true
      · rw [if_pos hp]
        exact ih
      · rw [if_neg hp]
        exact ih

/-- C6 as amended: the hardcoded override is consulted only for the trail
still current when the loop over the container children ends, that is, for
the last trail of the output; when that last trail carries the overridden
name its map URL is the hardcoded one.  Trails flushed earlier in the loop
always go through the generic search, as the counterexample shows. -/
theorem eco_override_amended (doc : Node) (ts : List EcoTrail) (t : EcoTrail)
    (h : parse_eco_trails doc = .ok ts) (hl : ts.getLast? = some t)
    (hn : t.name = "Северная энергия") : t.map_url = some ecoHardUrl := by
  unfold parse_eco_trails at h
  cases hcd : ecoContainer doc with
  | none => rw [hcd] at h; simp at h
  | some cd =>
    rw [hcd] at h
    dsimp only at h
    have hts : ecoLoop doc cd.childrenOf none = ts := Except.ok.inj h
    rcases ecoLoop_last_none doc cd.childrenOf with he | ⟨pre, t2, he⟩
    · rw [he] at hts
      rw [← hts] at hl
      simp at hl
    · rw [he] at hts
      rw [← hts] at hl
      rw [List.getLast?_concat] at hl
      have ht : ecoFinal doc t2 = t := Option.some.inj hl
      unfold ecoFinal at ht
      by_cases hn2 : t2.name = "Северная энергия"
      · rw [if_pos hn2] at ht
        rw [← ht]
      · rw [if_neg hn2] at ht
        rw [← ht] at hn
        exact absurd hn hn2

/-- An eco-trail page on which the overridden name heads the first of two
trails. -/
def docC6 : Node := .elem "[document]" [] [] [
  .elem "div" [] [("data-formatted-text", "")] [
    .elem "h2" [] [] [.text "Северная энергия - живописный маршрут"],
    .elem "h2" [] [] [.text "Лесная тропа - прогулка"]]]

/-- Counterexample to C6: when the overridden name is not the last trail of
the document, its record keeps the result of the generic search (here
absent), not the hardcoded URL. -/
theorem eco_override_counterexample :
    (parse_eco_trails docC6).toOption.map (fun ts => ts.map (fun t => (t.name, t.map_url))) =
      some [("Северная энергия", none), ("Лесная тропа", none)] ∧
    (none : Option String) ≠ some ecoHardUrl :=
  ⟨rfl, by simp⟩

/-- An eco-trail page whose only (hence last) trail carries the overridden
name. -/
def docC6w : Node := .elem "[document]" [] [] [
  .elem "div" [] [("data-formatted-text", "")] [
    .elem "h2" [] [] [.text "Северная энергия - живописный маршрут"]]]

/-- Witness for C6 as amended, at a concrete single-trail document. -/
theorem eco_override_amended_witness :
    EcoTrail.map_url ⟨"Северная энергия", 0, "живописный маршрут", some ecoHardUrl⟩ =
      some ecoHardUrl :=
  eco_override_amended docC6w
    [⟨"Северная энергия", 0, "живописный маршрут", some ecoHardUrl⟩]
    ⟨"Северная энергия", 0, "живописный маршрут", some ecoHardUrl⟩ rfl rfl rfl

/-! ## The multi-zone crawl under a single zone failure -/

/-- C2 as amended: when one of three listed zones fails to fetch, the
winter.py crawl aborts as a whole with the propagated parse error, and the
main.py crawl returns a record for every zone in which the failed zone is
indistinguishable from a zone with no tracks (an empty track list, not a
recorded failure), while the other zones are still fully extracted. -/
theorem crawl_partial_amended (fetch : String → Except String Node) (d0 d dz1 dz3 : Node)
    (a1 a2 a3 : Node) (e : String)
    (h0 : fetch "https://ski-gv.ru" = .ok d0)
    (hidx : fetch "https://ski-gv.ru/hills/1/1/" = .ok d)
    (hanch : zoneAnchors d = [a1, a2, a3])
    (h1 : fetch (zoneUrlOf a1) = .ok dz1)
    (h2 : fetch (zoneUrlOf a2) = .error e)
    (h3 : fetch (zoneUrlOf a3) = .ok dz3) :
    winter_get_zones fetch = .error ⟨500, "Ошибка при парсинге трасс: " ++ e⟩ ∧
    main_get_zones fetch = some [
      ⟨zoneNameOf a1, zoneUrlOf a1, parseTracksDoc dz1⟩,
      ⟨zoneNameOf a2, zoneUrlOf a2, []⟩,
      ⟨zoneNameOf a3, zoneUrlOf a3, parseTracksDoc dz3⟩] := by
  constructor
  · unfold winter_get_zones
    rw [hidx]
    dsimp only
    rw [hanch]
    rw [if_neg (by simp)]
    simp only [winterZonesGo, winter_parse_tracks]
    rw [h1, h2]
    rfl
  · unfold main_get_zones
    rw [h0]
    dsimp only
    rw [hidx]
    dsimp only
    rw [hanch]
    rw [if_neg (by simp)]
    simp only [List.map_cons, List.map_nil]
    unfold main_parse_tracks
    rw [h1, h2, h3]

/-- A zone anchor of the index page. -/
def zoneAnchorC2 (href nm : String) : Node :=
  .elem "a" ["gv-select__option", "option"] [("href", href)] [.text nm]

/-- An index page listing three zones. -/
def idxDocC2 : Node := .elem "[document]" [] [] [
  zoneAnchorC2 "/z1/" "Зона 1", zoneAnchorC2 "/z2/" "Зона 2", zoneAnchorC2 "/z3/" "Зона 3"]

/-- A zone page carrying one named track block. -/
def trackDocC2 (nm : String) : Node := .elem "[document]" [] [] [
  .elem "div" ["track-option"] [] [
    .elem "div" ["track-option__name"] [] [.text nm]]]

/-- A fetch oracle on which the second of the three zones fails. -/
def fetchC2 : String → Except String Node := fun url =>
  if url = "https://ski-gv.ru" then .ok (.elem "[document]" [] [] [])
  else if url = "https://ski-gv.ru/hills/1/1/" then .ok idxDocC2
  else if url = "https://ski-gv.ru/z1/" then .ok (trackDocC2 "Трасса 1")
  else if url = "https://ski-gv.ru/z2/" then .error "connection refused"
  else if url = "https://ski-gv.ru/z3/" then .ok (trackDocC2 "Трасса 3")
  else .error "not found"

/-- Counterexample to C2: with one of three zones failing, the winter.py
crawl result is a total abort, and the main.py crawl yields three plain
zone records in which the failed zone carries an empty track list; neither
contains two successes plus a per-zone failure record. -/
theorem crawl_partial_counterexample :
    winter_get_zones fetchC2 =
      .error ⟨500, "Ошибка при парсинге трасс: connection refused"⟩ ∧
    main_get_zones fetchC2 = some [
      ⟨"Зона 1", "https://ski-gv.ru/z1/",
        [⟨"Трасса 1", "Не указано", { difficulty := some "Не указано" },
          "Статус неизвестен", none⟩]⟩,
      ⟨"Зона 2", "https://ski-gv.ru/z2/", []⟩,
      ⟨"Зона 3", "https://ski-gv.ru/z3/",
        [⟨"Трасса 3", "Не указано", { difficulty := some "Не указано" },
          "Статус неизвестен", none⟩]⟩] :=
  ⟨rfl, rfl⟩

/-- Witness for C2 as amended, at the concrete three-zone oracle. -/
theorem crawl_partial_amended_witness :
    winter_get_zones fetchC2 =
      .error ⟨500, "Ошибка при парсинге трасс: " ++ "connection refused"⟩ ∧
    main_get_zones fetchC2 = some [
      ⟨zoneNameOf (zoneAnchorC2 "/z1/" "Зона 1"), zoneUrlOf (zoneAnchorC2 "/z1/" "Зона 1"),
        parseTracksDoc (trackDocC2 "Трасса 1")⟩,
      ⟨zoneNameOf (zoneAnchorC2 "/z2/" "Зона 2"), zoneUrlOf (zoneAnchorC2 "/z2/" "Зона 2"), []⟩,
      ⟨zoneNameOf (zoneAnchorC2 "/z3/" "Зона 3"), zoneUrlOf (zoneAnchorC2 "/z3/" "Зона 3"),
        parseTracksDoc (trackDocC2 "Трасса 3")⟩] :=
  crawl_partial_amended fetchC2 (.elem "[document]" [] [] []) idxDocC2
    (trackDocC2 "Трасса 1") (trackDocC2 "Трасса 3")
    (zoneAnchorC2 "/z1/" "Зона 1") (zoneAnchorC2 "/z2/" "Зона 2") (zoneAnchorC2 "/z3/" "Зона 3")
    "connection refused" rfl rfl rfl rfl rfl rfl

/-! ## Lift fetching and price plans (lift_schedule_api.py fetch_lifts, test.py)

fetch_lifts wraps the lift-schedule fetch: a fetch failure raises an
HTTPException with status 503, while an AttributeError raised inside
parse_html is not a requests.RequestException and escapes the except
clause as an unhandled Python exception.  test.py fetches the ski-pass
page through get_page_content (fetch failure raised as status 500) and
parses the single table through parse_ski_pass_table (missing table raised
as status 404).  The three-way PyOutcome distinguishes a normal result, a
raised HTTPException and an unhandled Python exception. -/

/-- Result of a Python call that may raise an HTTPException or let another
exception escape. -/
inductive PyOutcome (α : Type) where
  | ok (a : α)
  | httpError (e : HttpErr)
  | pyError (msg : String)
deriving Repr, DecidableEq

/-- Embedding of lift_schedule_api.py fetch_lifts: a failed fetch is caught
and re-raised as status 503 with the cause; the AttributeError of
parse_html escapes uncaught. -/
def fetch_lifts (fetch : String → Except String Node) : PyOutcome (List LiftInfo) :=
  match fetch "https://ski-gv.ru/about-us/schedule/" with
  | .error e => .httpError ⟨503, "Ошибка при получении данных: " ++ e⟩
  | .ok doc =>
    match parse_html doc with
    | .ok lifts => .ok lifts
    | .error m => .pyError m

/-- Embedding of test.py get_page_content: a failed fetch is raised as
status 500 with the cause. -/
def get_page_content (fetch : String → Except String Node) (url : String) :
    Except HttpErr Node :=
  match fetch url with
  | .error e => .error ⟨500, "Ошибка при загрузке страницы: " ++ e⟩
  | .ok doc => .ok doc

/-- Serialised attributes of an element, for the str(row) substring test. -/
def attrsHtml (attrs : List (String × String)) : String :=
  (attrs.map (fun kv => " " ++ kv.1 ++ "=\"" ++ kv.2 ++ "\"")).foldl (· ++ ·) ""

mutual
/-- Serialisation of a node as Python str would print it: tag, class
attribute, remaining attributes in stored order, children recursively.
Used only for the substring test on the first presentational row. -/
def htmlOf : Node → String
  | .text s => s
  | .elem t cs attrs kids =>
    "<" ++ t ++ (if cs.isEmpty then "" else " class=\"" ++ " ".intercalate cs ++ "\"") ++
    attrsHtml attrs ++ ">" ++ htmlOfKids kids ++ "</" ++ t ++ ">"
/-- Serialisation of a forest. -/
def htmlOfKids : List Node → String
  | [] => ""
  | n :: ns => htmlOf n ++ htmlOfKids ns
end

/-- A ski-pass record of test.py. -/
structure SkiPass where
  name : String
  description : Option String
  regular_price : Option Int
  sakhalin_card_price : Option Int
deriving Repr, DecidableEq

/-- A category of ski passes. -/
structure SkiCategory where
  name : String
  passes : List SkiPass
deriving Repr, DecidableEq

/-- The root category returned by parse_ski_pass_table. -/
structure RootCategory where
  name : String := "Разовые подъемы"
  categories : List SkiCategory
deriving Repr, DecidableEq

/-- Lexicographic code-point comparison of Python strings. -/
def pyStrLt : List Char → List Char → Bool
  | [], [] => false
  | [], _ :: _ => true
  | _ :: _, [] => false
  | x :: xs, y :: ys =>
    if x.toNat < y.toNat then true
    else if y.toNat < x.toNat then false
    else pyStrLt xs ys

/-- Sort order of the categories: ascending by name. -/
def catLe (a b : SkiCategory) : Bool :=
  !pyStrLt b.name.toList a.name.toList

/-- Stable insertion into a sorted list (an element goes before the first
one it may precede, preserving the original order of ties). -/
def insertS (le : SkiCategory → SkiCategory → Bool) (a : SkiCategory) :
    List SkiCategory → List SkiCategory
  | [] => [a]
  | b :: r => if le a b then a :: b :: r else b :: insertS le a r

/-- Stable sort (Python sorted with a key). -/
def pySorted (le : SkiCategory → SkiCategory → Bool) : List SkiCategory → List SkiCategory
  | [] => []
  | x :: r => insertS le x (pySorted le r)

/-- Append a pass to its category entry of the insertion-ordered
dictionary. -/
def appendPass (data : List (String × List SkiPass)) (cat : String) (p : SkiPass) :
    List (String × List SkiPass) :=
  data.map (fun kv => if kv.1 = cat then (kv.1, kv.2 ++ [p]) else kv)

/-- The row loop of parse_ski_pass_table: while the first-category flag is
set, a row whose serialisation mentions a background is skipped once; a
single cell spanning five columns starts a category; a row of at least
three cells under a non-empty current category contributes a pass, its two
prices going through clean_price (whose ValueError would escape as an
unhandled exception). -/
def skiRows : List Node → List (String × List SkiPass) → Option String → Bool →
    PyOutcome (List (String × List SkiPass))
  | [], data, _, _ => .ok data
  | row :: rest, data, current, first =>
    if first && strHas (htmlOf row) "background" then
      skiRows rest data current false
    else
      let cells := findAllIn row (fun n => tagIs "th" n || tagIs "td" n)
      if cells.length = 1 ∧ (cells.headD (.text "")).attr "colspan" = some "5" then
        let cat := getTextStrip (cells.headD (.text ""))
        let data2 := if data.any (fun kv => kv.1 = cat) then data else data ++ [(cat, [])]
        skiRows rest data2 (some cat) first
      else
        match cells, current with
        | c0 :: c1 :: c2 :: _, some cat =>
          if cat ≠ "" then
            let nm :=
              match findIn c0 (tagIs "h3") with
              | some h => getTextStrip h
              | none => getTextStrip c0
            let desc := (findIn c0 (tagIs "div")).map getTextStrip
            match clean_price (getTextStrip c1) with
            | .error m => .pyError m
            | .ok rp =>
              match clean_price (getTextStrip c2) with
              | .error m => .pyError m
              | .ok sp =>
                skiRows rest (appendPass data cat ⟨nm, desc, rp, sp⟩) current first
          else skiRows rest data current first
        | _, _ => skiRows rest data current first

/-- Embedding of test.py parse_ski_pass_table: the single table is
mandatory (HTTPException 404 when absent); the categories are returned
sorted by name. -/
def parse_ski_pass_table (doc : Node) : PyOutcome RootCategory :=
  match findIn doc (tagIs "table") with
  | none => .httpError ⟨404, "Таблица не найдена на странице"⟩
  | some table =>
    match skiRows (findAllIn table (tagIs "tr")) [] none true with
    | .pyError m => .pyError m
    | .httpError e => .httpError e
    | .ok data =>
      .ok ⟨"Разовые подъемы", pySorted catLe (data.map (fun kv => SkiCategory.mk kv.1 kv.2))⟩

/-! ## Error surfacing across the extractors -/

/-- C8 as amended: the weather extractor surfaces a fetch failure as a
status-503 error carrying the cause, the eco-trail extractor surfaces a
missing top-level container as a status-500 error naming the container,
the lift-schedule extractor surfaces a fetch failure as a status-503 error
carrying the cause, and the price extractor surfaces a fetch failure as a
status-500 error carrying the cause and a missing table as a status-404
error naming the missing container; but the restaurant extractor maps a
failed fetch to a fresh all-fields-absent record, and the main.py track
extractor maps a failed zone fetch to an empty track list, both
indistinguishable from pages with no extractable content. -/
theorem error_surfacing_amended :
    (∀ (fetch : String → Except String Node) (e : String),
      fetch "https://ski-gv.ru/weather/" = .error e →
      fetch_weather_data fetch = .error ⟨503, "Error fetching weather data: " ++ e⟩) ∧
    (∀ doc : Node, ecoContainer doc = none →
      parse_eco_trails doc = .error ⟨500, "Не найден основной контейнер с данными"⟩) ∧
    (∀ (fetch : String → Except String Node) (e : String),
      fetch "https://ski-gv.ru/about-us/schedule/" = .error e →
      fetch_lifts fetch = .httpError ⟨503, "Ошибка при получении данных: " ++ e⟩) ∧
    (∀ (fetch : String → Except String Node) (url : String) (e : String),
      fetch url = .error e →
      get_page_content fetch url = .error ⟨500, "Ошибка при загрузке страницы: " ++ e⟩) ∧
    (∀ doc : Node, findIn doc (tagIs "table") = none →
      parse_ski_pass_table doc = .httpError ⟨404, "Таблица не найдена на странице"⟩) ∧
    (∀ (fetch : String → Except String Node) (url : String) (e : String),
      fetch url = .error e → parse_single_restaurant fetch url = {}) ∧
    (∀ (fetch : String → Except String Node) (url : String) (e : String),
      fetch url = .error e → main_parse_tracks fetch url = []) := by
  refine ⟨?_, ?_, ?_, ?_, ?_, ?_, ?_⟩
  · intro fetch e h
    unfold fetch_weather_data
    rw [h]
  · intro doc h
    unfold parse_eco_trails
    rw [h]
  · intro fetch e h
    unfold fetch_lifts
    rw [h]
  · intro fetch url e h
    unfold get_page_content
    rw [h]
  · intro doc h
    unfold parse_ski_pass_table
    rw [h]
  · intro fetch url e h
    unfold parse_single_restaurant
    rw [h]
  · intro fetch url e h
    unfold main_parse_tracks
    rw [h]

/-- Counterexample to C8: a failed restaurant fetch produces the
all-fields-absent record rather than a distinguishable failure value, and a
failed zone fetch in main.py produces an empty track list. -/
theorem error_surfacing_counterexample :
    parse_single_restaurant (fun _ => .error "connection refused")
        "https://ski-gv.ru/restaurants/company/4/" =
      { name := none, schedule := none, address := none, phone := none,
        description := [], images := [], breadcrumbs := [] } ∧
    main_parse_tracks (fun _ => .error "connection refused")
        "https://ski-gv.ru/hills/1/1/" = [] :=
  ⟨rfl, rfl⟩

/-- Witness for C8 as amended at concrete failing oracles and empty
documents. -/
theorem error_surfacing_amended_witness :
    fetch_weather_data (fun _ => .error "timeout") =
      .error ⟨503, "Error fetching weather data: " ++ "timeout"⟩ ∧
    parse_eco_trails (.elem "[document]" [] [] []) =
      .error ⟨500, "Не найден основной контейнер с данными"⟩ ∧
    fetch_lifts (fun _ => .error "timeout") =
      .httpError ⟨503, "Ошибка при получении данных: " ++ "timeout"⟩ ∧
    get_page_content (fun _ => .error "timeout") "https://ski-gv.ru/skipass-info/" =
      .error ⟨500, "Ошибка при загрузке страницы: " ++ "timeout"⟩ ∧
    parse_ski_pass_table (.elem "[document]" [] [] []) =
      .httpError ⟨404, "Таблица не найдена на странице"⟩ ∧
    parse_single_restaurant (fun _ => .error "timeout") "https://ski-gv.ru/x/" = {} ∧
    main_parse_tracks (fun _ => .error "timeout") "https://ski-gv.ru/x/" = [] :=
  ⟨error_surfacing_amended.1 (fun _ => .error "timeout") "timeout" rfl,
   error_surfacing_amended.2.1 (.elem "[document]" [] [] []) rfl,
   error_surfacing_amended.2.2.1 (fun _ => .error "timeout") "timeout" rfl,
   error_surfacing_amended.2.2.2.1 (fun _ => .error "timeout")
     "https://ski-gv.ru/skipass-info/" "timeout" rfl,
   error_surfacing_amended.2.2.2.2.1 (.elem "[document]" [] [] []) rfl,
   error_surfacing_amended.2.2.2.2.2.1 (fun _ => .error "timeout")
     "https://ski-gv.ru/x/" "timeout" rfl,
   error_surfacing_amended.2.2.2.2.2.2 (fun _ => .error "timeout")
     "https://ski-gv.ru/x/" "timeout" rfl⟩

/-! ## De-duplication of the restaurant lists -/

/-- The stripped paragraph texts a description block contributes, in
order. -/
def blockTexts (b : Node) : List String :=
  (blockParas b).map (fun p => pyStrip (textOf p))

/-- The full ordered stream of description candidates: formatted-text
paragraphs first, then the block paragraphs. -/
def descCandidates (doc : Node) : List String :=
  ((match fmtDivR doc with
    | some d => findAllIn d (tagIs "p")
    | none => []).map (fun p => pyStrip (textOf p))) ++
  ((descBlocks doc).map blockTexts).flatten

/-- The full ordered stream of resolved image candidates: main image
first, then the loop candidates. -/
def imgCandidateUrls (doc : Node) : List String :=
  mainImgList doc ++ ((imgCandidates doc).filterMap candSrc).map resolveImg

/-- Every raw image src of the document (main image and loop candidates)
is already absolute. -/
def allSrcAbs (doc : Node) : Bool :=
  (mainImgSrc doc).all isAbsUrl &&
  (imgCandidates doc).all (fun n => (candSrc n).all isAbsUrl)

/-- Appending a fresh element keeps a list duplicate-free. -/
theorem nodup_append_one (l : List String) (a : String) (h : l.Nodup) (ha : a ∉ l) :
    (l ++ [a]).Nodup := by
  rw [List.nodup_append]
  refine ⟨h, List.nodup_singleton a, ?_⟩
  intro x hx hmem
  simp only [List.mem_singleton] at hmem
  subst hmem
  exact ha hx

/-- Resolution is the identity on absolute URLs. -/
theorem resolveImg_abs {s : String} (h : isAbsUrl s = true) : resolveImg s = s := by
  unfold resolveImg
  rw [if_pos h]

/-- The first description loop preserves freedom from duplicates. -/
theorem fold_desc1_nodup : ∀ (ps : List Node) (acc : List String),
    acc.Nodup → (ps.foldl descStep1 acc).Nodup := by
  intro ps
  induction ps with
  | nil => intro acc h; exact h
  | cons p rest ih =>
    intro acc h
    rw [List.foldl_cons]
    apply ih
    unfold descStep1
    dsimp only
    split_ifs with hc
    · exact nodup_append_one _ _ h hc.2
    · exact h

/-- The second description loop preserves freedom from duplicates. -/
theorem fold_desc2_nodup : ∀ (ps : List Node) (acc : List String),
    acc.Nodup → (ps.foldl descStep2 acc).Nodup := by
  intro ps
  induction ps with
  | nil => intro acc h; exact h
  | cons p rest ih =>
    intro acc h
    rw [List.foldl_cons]
    apply ih
    unfold descStep2
    dsimp only
    split_ifs with hc
    · exact nodup_append_one _ _ h hc.2.1
    · exact h

/-- The block loop preserves freedom from duplicates. -/
theorem fold_blocks_nodup : ∀ (bs : List Node) (acc : List String),
    acc.Nodup → (bs.foldl (fun acc b => (blockParas b).foldl descStep2 acc) acc).Nodup := by
  intro bs
  induction bs with
  | nil => intro acc h; exact h
  | cons b rest ih =>
    intro acc h
    rw [List.foldl_cons]
    exact ih _ (fold_desc2_nodup (blockParas b) acc h)

/-- With absolute candidate srcs the image loop preserves freedom from
duplicates. -/
theorem fold_img_nodup : ∀ (ns : List Node) (acc : List String),
    acc.Nodup → (∀ n ∈ ns, (candSrc n).all isAbsUrl = true) →
    (ns.foldl imgStep acc).Nodup := by
  intro ns
  induction ns with
  | nil => intro acc h _; exact h
  | cons n rest ih =>
    intro acc h habs
    rw [List.foldl_cons]
    apply ih _ _ (fun m hm => habs m (List.mem_cons_of_mem n hm))
    cases hc : candSrc n with
    | none =>
      have hstep : imgStep acc n = acc := by
        unfold imgStep; rw [hc]
      rw [hstep]
      exact h
    | some s =>
      have habs2 : isAbsUrl s = true := by
        have hthis := habs n (by simp)
        rw [hc] at hthis
        simpa using hthis
      have hstep : imgStep acc n = addImg acc s := by
        unfold imgStep; rw [hc]
      rw [hstep]
      by_cases hmem : s ∈ acc
      · have he : addImg acc s = acc := by
          unfold addImg; rw [if_neg (not_not_intro hmem)]
        rw [he]
        exact h
      · have he : addImg acc s = acc ++ [resolveImg s] := by
          unfold addImg; rw [if_pos hmem]
        rw [he, resolveImg_abs habs2]
        exact nodup_append_one _ _ h hmem

/-- The first description loop appends a subsequence of its candidate
texts, in order. -/
theorem fold_desc1_split : ∀ (ps : List Node) (acc : List String),
    ∃ s, ps.foldl descStep1 acc = acc ++ s ∧
      s.Sublist (ps.map (fun p => pyStrip (textOf p))) := by
  intro ps
  induction ps with
  | nil => intro acc; exact ⟨[], by simp, by simp⟩
  | cons p rest ih =>
    intro acc
    rw [List.foldl_cons, List.map_cons]
    unfold descStep1
    dsimp only
    split_ifs with hc
    · obtain ⟨s, hs, hsub⟩ := ih (acc ++ [pyStrip (textOf p)])
      exact ⟨pyStrip (textOf p) :: s,
        hs.trans (by rw [List.append_assoc]; rfl), hsub.cons₂ _⟩
    · obtain ⟨s, hs, hsub⟩ := ih acc
      exact ⟨s, hs, hsub.cons _⟩

/-- The second description loop appends a subsequence of its candidate
texts, in order. -/
theorem fold_desc2_split : ∀ (ps : List Node) (acc : List String),
    ∃ s, ps.foldl descStep2 acc = acc ++ s ∧
      s.Sublist (ps.map (fun p => pyStrip (textOf p))) := by
  intro ps
  induction ps with
  | nil => intro acc; exact ⟨[], by simp, by simp⟩
  | cons p rest ih =>
    intro acc
    rw [List.foldl_cons, List.map_cons]
    unfold descStep2
    dsimp only
    split_ifs with hc
    · obtain ⟨s, hs, hsub⟩ := ih (acc ++ [pyStrip (textOf p)])
      exact ⟨pyStrip (textOf p) :: s,
        hs.trans (by rw [List.append_assoc]; rfl), hsub.cons₂ _⟩
    · obtain ⟨s, hs, hsub⟩ := ih acc
      exact ⟨s, hs, hsub.cons _⟩

/-- The block loop appends a subsequence of the concatenated block
texts, in order. -/
theorem fold_blocks_split : ∀ (bs : List Node) (acc : List String),
    ∃ s, bs.foldl (fun acc b => (blockParas b).foldl descStep2 acc) acc = acc ++ s ∧
      s.Sublist ((bs.map blockTexts).flatten) := by
  intro bs
  induction bs with
  | nil => intro acc; exact ⟨[], by simp, by simp⟩
  | cons b rest ih =>
    intro acc
    rw [List.foldl_cons, List.map_cons, List.flatten_cons]
    obtain ⟨s1, hs1, hsub1⟩ := fold_desc2_split (blockParas b) acc
    rw [hs1]
    obtain ⟨s2, hs2, hsub2⟩ := ih (acc ++ s1)
    rw [hs2, List.append_assoc]
    exact ⟨s1 ++ s2, rfl, hsub1.append hsub2⟩

/-- The image loop appends a subsequence of the resolved candidate
URLs, in order. -/
theorem fold_img_split : ∀ (ns : List Node) (acc : List String),
    ∃ s, ns.foldl imgStep acc = acc ++ s ∧
      s.Sublist ((ns.filterMap candSrc).map resolveImg) := by
  intro ns
  induction ns with
  | nil => intro acc; exact ⟨[], by simp, by simp⟩
  | cons n rest ih =>
    intro acc
    rw [List.foldl_cons]
    cases hc : candSrc n with
    | none =>
      have hstep : imgStep acc n = acc := by
        unfold imgStep; rw [hc]
      rw [hstep, List.filterMap_cons, hc]
      exact ih acc
    | some v =>
      have hstep : imgStep acc n = addImg acc v := by
        unfold imgStep; rw [hc]
      rw [hstep, List.filterMap_cons, hc, List.map_cons]
      by_cases hmem : v ∈ acc
      · have he : addImg acc v = acc := by
          unfold addImg; rw [if_neg (not_not_intro hmem)]
        rw [he]
        obtain ⟨s, hs, hsub⟩ := ih acc
        exact ⟨s, hs, hsub.cons _⟩
      · have he : addImg acc v = acc ++ [resolveImg v] := by
          unfold addImg; rw [if_pos hmem]
        rw [he]
        obtain ⟨s, hs, hsub⟩ := ih (acc ++ [resolveImg v])
        exact ⟨resolveImg v :: s,
          hs.trans (by rw [List.append_assoc]; rfl), hsub.cons₂ _⟩

/-- C9 as amended: the description list never contains a repeated element
and is an in-order subsequence of the candidate paragraph stream; the
image list is an in-order subsequence of the resolved candidate stream,
but it is de-duplicated by comparing the raw src string against the stored
resolved URLs, so freedom from duplicates is guaranteed only when every
candidate src is already absolute; a relative src whose resolution
coincides with a stored URL produces a repeat, as the counterexample
shows. -/
theorem restaurant_lists_amended (doc : Node) :
    (restDescriptions doc).Nodup ∧
    (restDescriptions doc).Sublist (descCandidates doc) ∧
    (restImages doc).Sublist (imgCandidateUrls doc) ∧
    (allSrcAbs doc = true → (restImages doc).Nodup) := by
  have hbase :
      (restDescriptions doc).Nodup ∧ (restDescriptions doc).Sublist (descCandidates doc) := by
    unfold restDescriptions descCandidates
    dsimp only
    constructor
    · exact fold_blocks_nodup _ _ (fold_desc1_nodup _ [] List.nodup_nil)
    · obtain ⟨s1, hs1, hsub1⟩ := fold_desc1_split
        (match fmtDivR doc with
         | some d => findAllIn d (tagIs "p")
         | none => []) []
      rw [hs1, List.nil_append]
      obtain ⟨s2, hs2, hsub2⟩ := fold_blocks_split (descBlocks doc) s1
      rw [hs2]
      exact hsub1.append hsub2
  refine ⟨hbase.1, hbase.2, ?_, ?_⟩
  · unfold restImages imgCandidateUrls
    obtain ⟨s, hs, hsub⟩ := fold_img_split (imgCandidates doc) (mainImgList doc)
    rw [hs]
    exact hsub.append_left _
  · intro habs
    unfold allSrcAbs at habs
    rw [Bool.and_eq_true] at habs
    have hmain : (mainImgList doc).Nodup := by
      unfold mainImgList
      cases mainImgSrc doc with
      | none => exact List.nodup_nil
      | some s => exact List.nodup_singleton _
    unfold restImages
    exact fold_img_nodup _ _ hmain (fun n hn => by
      have := habs.2
      rw [List.all_eq_true] at this
      exact this n hn)


/-- A restaurant page whose main image carries a relative src; the main
image also matches the image-class candidate query, so its raw src is
checked against the already-resolved stored URL and appended a second
time. -/
def docC9 : Node := .elem "[document]" [] [] [
  .elem "img" ["page__main-image"] [("src", "/a.jpg")] []]

/-- Counterexample to C9: the image list of a page with one relative-src
main image contains the same resolved URL twice. -/
theorem restaurant_dedup_counterexample :
    restImages docC9 = ["https://ski-gv.ru/a.jpg", "https://ski-gv.ru/a.jpg"] ∧
    ¬ (restImages docC9).Nodup :=
  ⟨rfl, by decide⟩

/-- A restaurant page with absolute image srcs, a repeated candidate and a
repeated description paragraph. -/
def docC9w : Node := .elem "[document]" [] [] [
  .elem "img" ["page__main-image"] [("src", "https://ski-gv.ru/a.jpg")] [],
  .elem "img" ["center"] [("src", "https://ski-gv.ru/a.jpg")] [],
  .elem "img" ["center"] [("src", "https://ski-gv.ru/b.jpg")] [],
  .elem "div" [] [("data-formatted-text", "")] [
    .elem "p" [] [] [.text "Уютный ресторан."],
    .elem "p" [] [] [.text "Уютный ресторан."],
    .elem "p" [] [] [.text "Домашняя кухня."]]]

/-- Witness for C9 as amended at a concrete absolute-src document. -/
theorem restaurant_lists_amended_witness :
    (restDescriptions docC9w).Nodup ∧ (restImages docC9w).Nodup :=
  ⟨(restaurant_lists_amended docC9w).1,
   (restaurant_lists_amended docC9w).2.2.2 (by decide)⟩
